import Mathlib

/-!
Verification development for the QuickBooks incremental synchronization engine
(`QuickBooksSync`). The Python source is shallowly embedded: Python scalar
values become `PyVal`, dictionaries become association lists, SQLite tables
become explicit list-valued states, and fallible operations return `Except`.
Each definition is annotated with the source function it embeds.
-/

namespace QBSync

/-- Python scalar values as they occur in extracted records: `None`, `bool`,
`int`, `float` (modelled as a rational, which is faithful for every float
literal the sync pipeline manipulates), and `str`. -/
inductive PyVal where
  | vNone : PyVal
  | vBool : Bool → PyVal
  | vInt : Int → PyVal
  | vReal : Rat → PyVal
  | vStr : String → PyVal
deriving DecidableEq, Repr

/-- Python truthiness (`if value:`): `None`, `False`, `0`, `0.0` and `""` are
falsy, everything else truthy. -/
def pyTruthy : PyVal → Bool
  | .vNone => false
  | .vBool b => b
  | .vInt n => n != 0
  | .vReal q => q != 0
  | .vStr s => s ≠ ""

/-- Python string `<`: lexicographic comparison by code point. -/
def charListLt : List Char → List Char → Bool
  | [], [] => false
  | [], _ :: _ => true
  | _ :: _, [] => false
  | a :: as, b :: bs =>
    if a.toNat < b.toNat then true
    else if b.toNat < a.toNat then false
    else charListLt as bs

/-- Python `a > b` on sync values. Comparisons between two `str`, or between
numbers (`bool` counts as `int` 0/1), succeed; any mixed `str`/number or
`None` comparison raises `TypeError`, modelled as `Except.error`. -/
def pyGt : PyVal → PyVal → Except Unit Bool
  | .vStr a, .vStr b => .ok (charListLt b.toList a.toList)
  | .vInt a, .vInt b => .ok (decide (b < a))
  | .vBool a, .vBool b => .ok (decide (b < a))
  | .vInt a, .vBool b => .ok (decide ((if b then (1 : Int) else 0) < a))
  | .vBool a, .vInt b => .ok (decide (b < (if a then (1 : Int) else 0)))
  | .vReal a, .vReal b => .ok (decide (b < a))
  | .vReal a, .vInt b => .ok (decide ((b : Rat) < a))
  | .vInt a, .vReal b => .ok (decide (b < (a : Rat)))
  | .vReal a, .vBool b => .ok (decide (((if b then (1 : Rat) else 0)) < a))
  | .vBool a, .vReal b => .ok (decide (b < (if a then (1 : Rat) else 0)))
  | _, _ => .error ()

/-- `dict.get(key)`: first binding wins, missing key yields `None`. -/
def pyGet (record : List (String × PyVal)) (key : String) : PyVal :=
  match record.find? (fun kv => kv.1 = key) with
  | some kv => kv.2
  | none => PyVal.vNone

/-! ### Status constants (`database/base.py`, classes `SyncStatus`,
`FieldTypes` and `MetadataBugStatus`) -/

def SUCCESS : String := "SUCCESS"
def ERROR : String := "ERROR"
def LOCKED : String := "LOCKED"
def BUSY : String := "BUSY"
def EDITING : String := "EDITING"
def NOT_FOUND : String := "NOT_FOUND"
def NO_CONNECTION : String := "NO_CONNECTION"

def TEXT : String := "TEXT"
def INTEGER : String := "INTEGER"
def REAL : String := "REAL"

def PENDING : String := "PENDING"
def FIXED : String := "FIXED"
def FAILED : String := "FAILED"

/-! ### Schema type inference (`utils.py`: `_is_int_str`, `_is_float_str`,
`determine_field_types`, `resolve_field_types`) -/

/-- Leading- and trailing-whitespace removal, as CPython's `int`/`float`
constructors apply to their string argument. -/
def pyStrip (cs : List Char) : List Char :=
  ((cs.dropWhile Char.isWhitespace).reverse.dropWhile Char.isWhitespace).reverse

/-- ASCII lower-casing, as `str.lower` on the identifiers the sync observes. -/
def pyLower (cs : List Char) : List Char :=
  cs.map Char.toLower

/-- One maximal run of ASCII digits possibly separated by single underscores,
continuing a run whose first digit has already been consumed (CPython's
numeric literal grammar: `digit (["_"] digit)*`). -/
def digitRun : List Char → Bool
  | [] => true
  | '_' :: c :: cs => c.isDigit && digitRun cs
  | ['_'] => false
  | c :: cs => c.isDigit && digitRun cs

/-- Nonempty underscore-separated digit run. -/
def digitRun1 : List Char → Bool
  | [] => false
  | c :: cs => c.isDigit && digitRun cs

/-- Possibly empty underscore-separated digit run (no leading underscore). -/
def digitRun0 (cs : List Char) : Bool :=
  cs.isEmpty || digitRun1 cs

/-- Drop one optional leading `+`/`-` sign. -/
def dropSign : List Char → List Char
  | [] => []
  | c :: cs => if c = '+' ∨ c = '-' then cs else c :: cs

/-- Split a character list at the first occurrence of `sep`. -/
def splitOnce (sep : Char) : List Char → Option (List Char × List Char)
  | [] => none
  | c :: cs =>
    if c = sep then some ([], cs)
    else match splitOnce sep cs with
      | some (a, b) => some (c :: a, b)
      | none => none

/-- `utils._is_int_str`: whether CPython `int(s)` succeeds — optional
whitespace, optional sign, then a nonempty digit run (ASCII model). -/
def is_int_str (s : String) : Bool :=
  digitRun1 (dropSign (pyStrip s.toList))

/-- Mantissa of a CPython float literal: digits, or digits around a single
decimal point with at least one digit present. -/
def floatMantissa (cs : List Char) : Bool :=
  match splitOnce '.' cs with
  | none => digitRun1 cs
  | some (a, b) => digitRun0 a && digitRun0 b && !(a.isEmpty && b.isEmpty)

/-- Core of the CPython `float` grammar on an already lower-cased character
list: optional whitespace and sign, then `inf`/`infinity`/`nan` or a mantissa
with an optional `e`-exponent. -/
def pyFloatCore (ls : List Char) : Bool :=
  let u := dropSign (pyStrip ls)
  if u = "inf".toList || u = "infinity".toList || u = "nan".toList then true
  else match splitOnce 'e' u with
    | none => floatMantissa u
    | some (m, e) => floatMantissa m && digitRun1 (dropSign e)

/-- Whether CPython `float(s)` succeeds (ASCII model; case-insensitivity of
the grammar is modelled by lower-casing the input first). -/
def pyFloatParses (s : String) : Bool :=
  pyFloatCore (pyLower s.toList)

/-- `utils._is_float_str`: `float(s)` succeeds and `s` contains a decimal
point or an exponent marker. -/
def is_float_str (s : String) : Bool :=
  pyFloatParses s && (s.toList.contains '.' || (pyLower s.toList).contains 'e')

/-- Per-value column-type inference: the classification chain in the body of
`utils.determine_field_types` (the ISO-date branch and the final fallback both
yield `TEXT` and are collapsed). -/
def determineValueType : PyVal → String
  | .vNone => TEXT
  | .vBool _ => INTEGER
  | .vInt _ => INTEGER
  | .vReal _ => REAL
  | .vStr s =>
    if s = "" then TEXT
    else if pyLower s.toList = "true".toList ∨ pyLower s.toList = "false".toList then INTEGER
    else if is_int_str s then INTEGER
    else if is_float_str s then REAL
    else TEXT

/-- `set.add` on a set of type names represented as a duplicate-free list. -/
def addTypeOnce (ts : List String) (t : String) : List String :=
  if t ∈ ts then ts else ts ++ [t]

/-- Update one field's entry in a `defaultdict(set)` of observed types. -/
def addFieldType (cur : List (String × List String)) (f t : String) :
    List (String × List String) :=
  match cur.find? (fun kv => kv.1 = f) with
  | some _ => cur.map (fun kv => if kv.1 = f then (kv.1, addTypeOnce kv.2 t) else kv)
  | none => cur ++ [(f, addTypeOnce [] t)]

/-- `utils.determine_field_types`: fold every field/value pair of every record
into the observed-type registry. -/
def determine_field_types (records : List (List (String × PyVal)))
    (current : List (String × List String)) : List (String × List String) :=
  records.foldl
    (fun cur record =>
      record.foldl (fun cur kv => addFieldType cur kv.1 (determineValueType kv.2)) cur)
    current

/-- The resolution step of `utils.resolve_field_types` for one field's
observed set: priority `TEXT > REAL > INTEGER`, empty set defaults to `TEXT`. -/
def resolveOne (ts : List String) : String :=
  let ts := if ts.isEmpty then [TEXT] else ts
  if TEXT ∈ ts then TEXT
  else if REAL ∈ ts then REAL
  else if INTEGER ∈ ts then INTEGER
  else TEXT

/-- `utils.resolve_field_types`: one resolved type per field name; a field
with no observed types resolves to `TEXT`. -/
def resolve_field_types (fieldNames : List String)
    (fieldTypes : List (String × List String)) : List (String × String) :=
  fieldNames.map (fun f =>
    let ts := match fieldTypes.find? (fun kv => kv.1 = f) with
      | some kv => kv.2
      | none => [TEXT]
    (f, resolveOne ts))

/-- Observed-type set of a single field across a list of values, as collected
by `determine_field_types` on one-field records. -/
def collectTypes (vs : List PyVal) : List String :=
  vs.foldl (fun ts v => addTypeOnce ts (determineValueType v)) []

theorem mem_addTypeOnce {ts : List String} {t u : String} :
    t ∈ addTypeOnce ts u ↔ t ∈ ts ∨ t = u := by
  unfold addTypeOnce
  split
  · constructor
    · exact Or.inl
    · rintro (h | rfl) <;> assumption
  · simp [List.mem_append]

theorem mem_collect_fold (vs : List PyVal) (ts : List String) (t : String) :
    t ∈ vs.foldl (fun ts v => addTypeOnce ts (determineValueType v)) ts ↔
      t ∈ ts ∨ ∃ v ∈ vs, determineValueType v = t := by
  induction vs generalizing ts with
  | nil => simp
  | cons v vs ih =>
    simp only [List.foldl_cons, ih, mem_addTypeOnce, List.mem_cons]
    constructor
    · rintro ((h | rfl) | ⟨w, hw, rfl⟩)
      · exact Or.inl h
      · exact Or.inr ⟨v, Or.inl rfl, rfl⟩
      · exact Or.inr ⟨w, Or.inr hw, rfl⟩
    · rintro (h | ⟨w, (rfl | hw), rfl⟩)
      · exact Or.inl (Or.inl h)
      · exact Or.inl (Or.inr rfl)
      · exact Or.inr ⟨w, hw, rfl⟩

theorem mem_collectTypes {vs : List PyVal} {t : String} :
    t ∈ collectTypes vs ↔ ∃ v ∈ vs, determineValueType v = t := by
  simpa [collectTypes] using mem_collect_fold vs [] t

theorem determineValueType_total (v : PyVal) :
    determineValueType v = TEXT ∨ determineValueType v = INTEGER ∨
      determineValueType v = REAL := by
  cases v <;> simp only [determineValueType] <;> try tauto
  split_ifs <;> tauto

theorem resolveOne_spec (ts : List String) :
    resolveOne ts =
      (if TEXT ∈ ts then TEXT
       else if REAL ∈ ts then REAL
       else if INTEGER ∈ ts then INTEGER
       else TEXT) := by
  unfold resolveOne
  by_cases hn : ts.isEmpty
  · have h0 : ts = [] := List.isEmpty_iff.mp hn
    subst h0
    simp
  · simp [hn]

theorem resolveOne_eq_INTEGER {ts : List String}
    (h : resolveOne ts = INTEGER) : TEXT ∉ ts ∧ REAL ∉ ts := by
  rw [resolveOne_spec] at h
  split_ifs at h with h1 h2
  · exact absurd h (by decide)
  · exact absurd h (by decide)
  · exact ⟨h1, h2⟩
  · exact absurd h (by decide)

theorem resolveOne_eq_REAL {ts : List String}
    (h : resolveOne ts = REAL) : TEXT ∉ ts := by
  rw [resolveOne_spec] at h
  split_ifs at h with h1
  · exact absurd h (by decide)
  all_goals exact h1

theorem resolveOne_TEXT_of_mem {ts : List String} (h : TEXT ∈ ts) :
    resolveOne ts = TEXT := by
  rw [resolveOne_spec, if_pos h]

theorem mem_dropWhile_of_not {p : Char → Bool} {c : Char} {l : List Char}
    (hc : c ∈ l) (hp : p c = false) : c ∈ l.dropWhile p := by
  induction l with
  | nil => cases hc
  | cons x xs ih =>
    rw [List.dropWhile_cons]
    by_cases hx : p x
    · rcases List.mem_cons.mp hc with rfl | hmem
      · rw [hp] at hx; cases hx
      · simpa [hx] using ih hmem
    · simpa [hx] using hc

theorem mem_pyStrip {c : Char} {cs : List Char} (hc : c ∈ cs)
    (hw : c.isWhitespace = false) : c ∈ pyStrip cs := by
  unfold pyStrip
  rw [List.mem_reverse]
  exact mem_dropWhile_of_not (List.mem_reverse.mpr (mem_dropWhile_of_not hc hw)) hw

theorem mem_dropSign {c : Char} {cs : List Char} (hc : c ∈ cs)
    (h1 : c ≠ '+') (h2 : c ≠ '-') : c ∈ dropSign cs := by
  cases cs with
  | nil => cases hc
  | cons x xs =>
    unfold dropSign
    by_cases hx : x = '+' ∨ x = '-'
    · rcases List.mem_cons.mp hc with rfl | hmem
      · rcases hx with rfl | rfl
        · exact absurd rfl h1
        · exact absurd rfl h2
      · simpa [hx] using hmem
    · simpa [hx] using hc

theorem digitRun_mem : ∀ {cs : List Char}, digitRun cs = true →
    ∀ c ∈ cs, c.isDigit = true ∨ c = '_' := by
  intro cs
  induction cs using digitRun.induct with
  | case1 => intro _ c hc; cases hc
  | case2 d ds ih =>
    intro h c hc
    rw [show digitRun ('_' :: d :: ds) = (d.isDigit && digitRun ds) from rfl,
      Bool.and_eq_true] at h
    rcases List.mem_cons.mp hc with rfl | hc2
    · exact Or.inr rfl
    · rcases List.mem_cons.mp hc2 with rfl | hc3
      · exact Or.inl h.1
      · exact ih h.2 c hc3
  | case3 =>
    intro h
    exact absurd h (by decide)
  | case4 c cs hn1 hn2 ih =>
    intro h x hx
    have hcu : c ≠ '_' := by
      rintro rfl
      cases cs with
      | nil => exact hn2 rfl rfl
      | cons y ys => exact hn1 y ys rfl rfl
    have heq : digitRun (c :: cs) = (c.isDigit && digitRun cs) := by
      rw [digitRun.eq_def]
      cases cs with
      | nil => simp [hcu]
      | cons y ys => simp [hcu]
    rw [heq, Bool.and_eq_true] at h
    rcases List.mem_cons.mp hx with rfl | hx2
    · exact Or.inl h.1
    · exact ih h.2 x hx2

theorem digitRun1_mem {cs : List Char} (h : digitRun1 cs = true) :
    ∀ c ∈ cs, c.isDigit = true ∨ c = '_' := by
  intro c hc
  cases cs with
  | nil => cases hc
  | cons x xs =>
    rw [show digitRun1 (x :: xs) = (x.isDigit && digitRun xs) from rfl,
      Bool.and_eq_true] at h
    rcases List.mem_cons.mp hc with rfl | hc2
    · exact Or.inl h.1
    · exact digitRun_mem h.2 c hc2

theorem toLower_eq_self_of_not_upper {c : Char}
    (h : ¬(c.toNat ≥ 65 ∧ c.toNat ≤ 90)) : c.toLower = c := by
  unfold Char.toLower
  exact if_neg h

theorem isDigit_toNat_le {c : Char} (h : c.isDigit = true) : c.toNat ≤ 57 := by
  simp only [Char.isDigit, Bool.and_eq_true, decide_eq_true_eq] at h
  exact h.2

theorem int_float_disjoint {s : String} (hi : is_int_str s = true)
    (hf : is_float_str s = true) : False := by
  unfold is_float_str at hf
  rw [Bool.and_eq_true, Bool.or_eq_true] at hf
  obtain ⟨-, hc⟩ := hf
  unfold is_int_str at hi
  have hdig := digitRun1_mem hi
  rcases hc with hdot | he
  · have hd : '.' ∈ s.toList := by simpa using hdot
    have h1 : '.' ∈ pyStrip s.toList := mem_pyStrip hd (by decide)
    have h2 : '.' ∈ dropSign (pyStrip s.toList) :=
      mem_dropSign h1 (by decide) (by decide)
    rcases hdig _ h2 with h | h
    · exact absurd h (by decide)
    · exact absurd h (by decide)
  · have hd : 'e' ∈ pyLower s.toList := by simpa using he
    obtain ⟨d, hdm, hlow⟩ := List.mem_map.mp hd
    have hdw : d.isWhitespace = false := by
      by_contra hw
      have hw2 : d.isWhitespace = true := by
        cases h : d.isWhitespace
        · exact absurd h hw
        · rfl
      simp only [Char.isWhitespace, Bool.or_eq_true, decide_eq_true_eq] at hw2
      rcases hw2 with ((rfl | rfl) | rfl) | rfl <;> exact absurd hlow (by decide)
    have h1 : d ∈ pyStrip s.toList := mem_pyStrip hdm hdw
    have hdp : d ≠ '+' := by rintro rfl; exact absurd hlow (by decide)
    have hdn : d ≠ '-' := by rintro rfl; exact absurd hlow (by decide)
    have h2 := mem_dropSign h1 hdp hdn
    rcases hdig _ h2 with h | h
    · have hself : d.toLower = d := by
        refine toLower_eq_self_of_not_upper ?_
        rintro ⟨h65, -⟩
        have := isDigit_toNat_le h
        omega
      rw [hself] at hlow
      subst hlow
      exact absurd h (by decide)
    · subst h
      exact absurd hlow (by decide)

theorem determine_single_field_from (f : String) (vs : List PyVal)
    (ts : List String) :
    determine_field_types (vs.map (fun v => [(f, v)])) [(f, ts)] =
      [(f, vs.foldl (fun ts v => addTypeOnce ts (determineValueType v)) ts)] := by
  induction vs generalizing ts with
  | nil => rfl
  | cons v vs ih =>
    have hstep :
        determine_field_types ((v :: vs).map (fun v => [(f, v)])) [(f, ts)] =
          determine_field_types (vs.map (fun v => [(f, v)]))
            [(f, addTypeOnce ts (determineValueType v))] := by
      simp [determine_field_types, addFieldType]
    rw [hstep, ih, List.foldl_cons]

theorem determine_resolve_single (f : String) (vs : List PyVal) :
    resolve_field_types [f]
        (determine_field_types (vs.map (fun v => [(f, v)])) []) =
      [(f, resolveOne (collectTypes vs))] := by
  cases vs with
  | nil => rfl
  | cons v vs =>
    have hstep :
        determine_field_types ((v :: vs).map (fun v => [(f, v)])) [] =
          determine_field_types (vs.map (fun v => [(f, v)]))
            [(f, addTypeOnce [] (determineValueType v))] := by
      simp [determine_field_types, addFieldType]
    rw [hstep, determine_single_field_from]
    simp [resolve_field_types, collectTypes]

/-- C7: for every field, the resolved column type obeys the dominance rule
text beats real beats integer — the column is numeric only if every observed
value was consistent with that numeric type; per-value inference maps
null/empty to text, booleans, native integers, integer-parsing strings and
"true"/"false" strings to integer, native reals and strings that parse as a
real while containing a decimal point or exponent marker to real; and the
observed value lists `["1", "2.5", "abc"]`, `["1", "2", "3"]` and
`["1.0", "2.5"]` resolve to text, integer and real respectively. -/
theorem field_type_resolution_dominance :
    (∀ (f : String) (vs : List PyVal),
      resolve_field_types [f]
          (determine_field_types (vs.map (fun v => [(f, v)])) []) =
        [(f, resolveOne (collectTypes vs))]) ∧
    (∀ vs : List PyVal, resolveOne (collectTypes vs) = INTEGER →
      ∀ v ∈ vs, determineValueType v = INTEGER) ∧
    (∀ vs : List PyVal, resolveOne (collectTypes vs) = REAL →
      ∀ v ∈ vs, determineValueType v = REAL ∨ determineValueType v = INTEGER) ∧
    (∀ (vs : List PyVal) (v : PyVal), v ∈ vs → determineValueType v = TEXT →
      resolveOne (collectTypes vs) = TEXT) ∧
    (determineValueType PyVal.vNone = TEXT ∧
      determineValueType (PyVal.vStr "") = TEXT ∧
      (∀ b, determineValueType (PyVal.vBool b) = INTEGER) ∧
      (∀ n, determineValueType (PyVal.vInt n) = INTEGER) ∧
      (∀ q, determineValueType (PyVal.vReal q) = REAL) ∧
      (∀ s, is_int_str s = true → determineValueType (PyVal.vStr s) = INTEGER) ∧
      (∀ s, (pyLower s.toList = "true".toList ∨ pyLower s.toList = "false".toList) →
        determineValueType (PyVal.vStr s) = INTEGER) ∧
      (∀ s, is_float_str s = true → determineValueType (PyVal.vStr s) = REAL)) ∧
    (resolveOne (collectTypes [PyVal.vStr "1", PyVal.vStr "2.5", PyVal.vStr "abc"]) = TEXT ∧
      resolveOne (collectTypes [PyVal.vStr "1", PyVal.vStr "2", PyVal.vStr "3"]) = INTEGER ∧
      resolveOne (collectTypes [PyVal.vStr "1.0", PyVal.vStr "2.5"]) = REAL) := by
  refine ⟨determine_resolve_single, ?_, ?_, ?_, ?_, by decide, by decide, by decide⟩
  · intro vs h v hv
    obtain ⟨hT, hR⟩ := resolveOne_eq_INTEGER h
    rcases determineValueType_total v with hd | hd | hd
    · exact absurd (mem_collectTypes.mpr ⟨v, hv, hd⟩) (hd ▸ hT)
    · exact hd
    · exact absurd (mem_collectTypes.mpr ⟨v, hv, hd⟩) (hd ▸ hR)
  · intro vs h v hv
    have hT := resolveOne_eq_REAL h
    rcases determineValueType_total v with hd | hd | hd
    · exact absurd (mem_collectTypes.mpr ⟨v, hv, hd⟩) (hd ▸ hT)
    · exact Or.inr hd
    · exact Or.inl hd
  · intro vs v hv hd
    exact resolveOne_TEXT_of_mem (mem_collectTypes.mpr ⟨v, hv, hd⟩)
  · refine ⟨rfl, by decide, fun b => rfl, fun n => rfl, fun q => rfl, ?_, ?_, ?_⟩
    · intro s hs
      have hne : s ≠ "" := by rintro rfl; exact absurd hs (by decide)
      simp only [determineValueType, if_neg hne]
      by_cases htf : (pyLower s.toList = "true".toList ∨ pyLower s.toList = "false".toList)
      · rw [if_pos htf]
      · rw [if_neg htf, if_pos hs]
    · intro s hs
      have hne : s ≠ "" := by
        rintro rfl
        rcases hs with h | h <;> exact absurd h (by decide)
      simp only [determineValueType, if_neg hne]
      rw [if_pos hs]
    · intro s hs
      have hne : s ≠ "" := by rintro rfl; exact absurd hs (by decide)
      have hint : is_int_str s = false := by
        cases h : is_int_str s
        · rfl
        · exact absurd (int_float_disjoint h hs) id
      have htf : ¬(pyLower s.toList = "true".toList ∨ pyLower s.toList = "false".toList) := by
        have hfp : pyFloatParses s = true := by
          unfold is_float_str at hs
          rw [Bool.and_eq_true] at hs
          exact hs.1
        rintro (h | h) <;>
          · unfold pyFloatParses at hfp
            rw [h] at hfp
            exact absurd hfp (by decide)
      simp only [determineValueType, if_neg hne]
      rw [if_neg htf, if_neg (by simp [hint]), if_pos hs]

/-- Witness for C7: the dominance and per-value clauses applied to concrete
inputs. -/
theorem field_type_resolution_dominance_witness :
    determineValueType (PyVal.vStr "7") = INTEGER ∧
      determineValueType (PyVal.vStr "2.5") = REAL ∧
      (∀ v ∈ [PyVal.vStr "1", PyVal.vStr "2", PyVal.vStr "3"],
        determineValueType v = INTEGER) ∧
      resolveOne (collectTypes [PyVal.vStr "1", PyVal.vStr "abc"]) = TEXT := by
  obtain ⟨-, hInt, -, hTxt, ⟨-, -, -, -, -, hIntStr, -, hFloatStr⟩, -⟩ :=
    field_type_resolution_dominance
  exact ⟨hIntStr "7" (by decide), hFloatStr "2.5" (by decide),
    hInt [PyVal.vStr "1", PyVal.vStr "2", PyVal.vStr "3"] (by decide),
    hTxt [PyVal.vStr "1", PyVal.vStr "abc"] (PyVal.vStr "abc") (by decide) (by decide)⟩

/-! ### Abstract-interface conformance (`database/base.py` class
`DatabaseInterface` versus `database/sqlite_db.py` class `SQLiteDatabase`) -/

/-- The names carrying `@abstractmethod` in `DatabaseInterface`
(`database/base.py`), in declaration order. -/
def databaseInterfaceAbstractMethods : List String :=
  ["connect", "disconnect", "create_table", "table_exists", "add_column",
   "insert_records", "insert_single_record", "delete_records",
   "get_record_count", "get_last_sync_time", "update_sync_timestamp",
   "initialize_sync_schedule", "get_sync_schedule", "track_custom_fields",
   "get_known_custom_fields", "execute_query", "begin_transaction",
   "commit_transaction", "rollback_transaction", "save_customer_prices",
   "get_all_tables", "verify_database", "initialize_metadata_bug_tracker",
   "detect_orphaned_records", "get_fix_attempt_status", "record_fix_attempt",
   "get_failed_fix_attempts"]

/-- The methods defined on `SQLiteDatabase` (`database/sqlite_db.py`), in
declaration order. -/
def sqliteDatabaseMethods : List String :=
  ["__init__", "connect", "disconnect", "_get_cursor", "create_table",
   "table_exists", "add_column", "insert_records", "insert_records_batch",
   "insert_single_record", "delete_records", "get_record_count",
   "get_last_sync_time", "update_sync_timestamp", "get_max_time_modified",
   "initialize_sync_schedule", "get_sync_schedule", "track_custom_fields",
   "get_known_custom_fields", "execute_query", "begin_transaction",
   "commit_transaction", "rollback_transaction", "save_customer_prices",
   "get_all_tables", "verify_database"]

/-- The abstract methods `SQLiteDatabase` leaves unimplemented — Python's
`abc` machinery keeps these in the class's `__abstractmethods__` set. -/
def sqliteUnimplementedAbstract : List String :=
  databaseInterfaceAbstractMethods.filter (fun m => m ∉ sqliteDatabaseMethods)

/-- CPython `abc` semantics: calling a class whose `__abstractmethods__` set
is nonempty raises `TypeError`. -/
def sqliteInstantiationRaisesTypeError : Bool :=
  !sqliteUnimplementedAbstract.isEmpty

/-- `main.initialize_database` (`main.py`): dispatch on the configured
database type; `"sqlite"` constructs `SQLiteDatabase(...)` (which per the
`abc` semantics above raises for an abstract class), anything else raises
`NotImplementedError`. `config.py` sets `DATABASE_CONFIG['type'] = 'sqlite'`. -/
def initialize_database (dbType : String) : Except String Unit :=
  if dbType = "sqlite" then
    if sqliteInstantiationRaisesTypeError then .error "TypeError"
    else .ok ()
  else .error "NotImplementedError"

/-- C2: the SQLite adapter does not implement the five orphan-tracking
operations declared abstract on `DatabaseInterface`, so constructing
`SQLiteDatabase` — as `initialize_database` does for the configured
`"sqlite"` type used by every sync and orphan-repair entry point — raises
`TypeError` (abstract class). -/
theorem sqlite_database_instantiation_fails :
    sqliteUnimplementedAbstract =
      ["initialize_metadata_bug_tracker", "detect_orphaned_records",
       "get_fix_attempt_status", "record_fix_attempt",
       "get_failed_fix_attempts"] ∧
    sqliteInstantiationRaisesTypeError = true ∧
    initialize_database "sqlite" = .error "TypeError" := by
  refine ⟨by decide, by decide, ?_⟩
  rw [show initialize_database "sqlite" =
    (if sqliteInstantiationRaisesTypeError then .error "TypeError" else .ok ()) from rfl]
  rw [if_pos (by decide)]

/-! ### Table lifecycle (`database/sqlite_db.py`: `create_table`,
`add_column`) -/

/-- A SQLite table: declared columns in order (name, type) and rows whose
values align with the columns; SQL `NULL` is `vNone`. -/
structure SqlTable where
  schema : List (String × String)
  rows : List (List PyVal)
deriving DecidableEq, Repr

/-- `SQLiteDatabase.add_column`: re-checks `PRAGMA table_info` and is a no-op
when the column exists; otherwise `ALTER TABLE ... ADD COLUMN` appends one
typed column, existing rows reading `NULL` in it. -/
def add_column (t : SqlTable) (col ty : String) : SqlTable :=
  if col ∈ t.schema.map Prod.fst then t
  else { schema := t.schema ++ [(col, ty)],
         rows := t.rows.map (fun r => r ++ [PyVal.vNone]) }

/-- `SQLiteDatabase.create_table`: if the table exists, diff the supplied
field dictionary against the column snapshot and `add_column` each missing
field; otherwise create the table (ensuring the primary key is a column). -/
def create_table (db : List (String × SqlTable)) (tableName : String)
    (fieldsDict : List (String × String)) (primaryKey : String) :
    List (String × SqlTable) :=
  match db.find? (fun kv => kv.1 = tableName) with
  | some t0 =>
    let snapshot := t0.2.schema.map Prod.fst
    let t1 := fieldsDict.foldl
      (fun acc fv => if fv.1 ∈ snapshot then acc else add_column acc fv.1 fv.2) t0.2
    db.map (fun kv => if kv.1 = tableName then (kv.1, t1) else kv)
  | none =>
    let fd :=
      if fieldsDict.isEmpty then [(primaryKey, TEXT)]
      else if primaryKey ∈ fieldsDict.map Prod.fst then fieldsDict
      else fieldsDict ++ [(primaryKey, TEXT)]
    db ++ [(tableName, { schema := fd, rows := [] })]

theorem widen_fold (fds : List (String × String)) (t : SqlTable)
    (snapshot : List String) (hn : (fds.map Prod.fst).Nodup)
    (H : ∀ fv ∈ fds, fv.1 ∉ snapshot → fv.1 ∉ t.schema.map Prod.fst) :
    (fds.foldl
        (fun acc fv => if fv.1 ∈ snapshot then acc else add_column acc fv.1 fv.2)
        t).schema =
      t.schema ++ fds.filter (fun fv => fv.1 ∉ snapshot) ∧
    (fds.foldl
        (fun acc fv => if fv.1 ∈ snapshot then acc else add_column acc fv.1 fv.2)
        t).rows =
      t.rows.map (fun r =>
        r ++ List.replicate (fds.filter (fun fv => fv.1 ∉ snapshot)).length
          PyVal.vNone) := by
  induction fds generalizing t with
  | nil =>
    constructor
    · simp
    · simp
  | cons fv fds ih =>
    rw [List.map_cons, List.nodup_cons] at hn
    by_cases hmem : fv.1 ∈ snapshot
    · have hstep :
          (fv :: fds).foldl
            (fun acc fv => if fv.1 ∈ snapshot then acc else add_column acc fv.1 fv.2)
            t =
          fds.foldl
            (fun acc fv => if fv.1 ∈ snapshot then acc else add_column acc fv.1 fv.2)
            t := by
        rw [List.foldl_cons, if_pos hmem]
      have hfil : (fv :: fds).filter (fun fv => fv.1 ∉ snapshot) =
          fds.filter (fun fv => fv.1 ∉ snapshot) := by
        rw [List.filter_cons]
        simp [hmem]
      rw [hstep, hfil]
      exact ih t hn.2 (fun fw hw => H fw (List.mem_cons_of_mem _ hw))
    · have hnotin : fv.1 ∉ t.schema.map Prod.fst :=
        H fv (List.mem_cons_self _ _) hmem
      have hstep :
          (fv :: fds).foldl
            (fun acc fv => if fv.1 ∈ snapshot then acc else add_column acc fv.1 fv.2)
            t =
          fds.foldl
            (fun acc fv => if fv.1 ∈ snapshot then acc else add_column acc fv.1 fv.2)
            { schema := t.schema ++ [fv],
              rows := t.rows.map (fun r => r ++ [PyVal.vNone]) } := by
        rw [List.foldl_cons, if_neg hmem]
        unfold add_column
        rw [if_neg hnotin]
      have hfil : (fv :: fds).filter (fun fv => fv.1 ∉ snapshot) =
          fv :: fds.filter (fun fv => fv.1 ∉ snapshot) := by
        rw [List.filter_cons]
        simp [hmem]
      set t' : SqlTable :=
        { schema := t.schema ++ [fv],
          rows := t.rows.map (fun r => r ++ [PyVal.vNone]) } with ht'
      have H' : ∀ fw ∈ fds, fw.1 ∉ snapshot → fw.1 ∉ t'.schema.map Prod.fst := by
        intro fw hw hws
        rw [ht']
        simp only [List.map_append, List.mem_append, List.map_cons]
        rintro (h | h)
        · exact H fw (List.mem_cons_of_mem _ hw) hws h
        · have : fw.1 = fv.1 := by simpa using h
          exact hn.1 (this ▸ List.mem_map_of_mem Prod.fst hw)
      obtain ⟨ihs, ihr⟩ := ih t' hn.2 H'
      constructor
      · rw [hstep, ihs, ht', hfil]
        simp
      · rw [hstep, ihr, ht', hfil]
        simp only [List.map_map, List.length_cons]
        apply List.map_congr_left
        intro r _
        simp [Function.comp, List.replicate_succ, List.append_assoc]

/-- C6: calling `create_table` on an existing table only appends each field
missing from the column snapshot as one nullable typed column; no existing
column is altered or dropped, every pre-existing row keeps its stored values
(reading `NULL` in the new columns), and no other table is touched. -/
theorem create_table_widens_additively (db : List (String × SqlTable))
    (tableName primaryKey : String) (fieldsDict : List (String × String))
    (t : SqlTable)
    (hfind : db.find? (fun kv => kv.1 = tableName) = some (tableName, t))
    (hn : (fieldsDict.map Prod.fst).Nodup) :
    create_table db tableName fieldsDict primaryKey =
      db.map (fun kv =>
        if kv.1 = tableName then
          (kv.1,
            { schema := t.schema ++
                fieldsDict.filter (fun fv => fv.1 ∉ t.schema.map Prod.fst),
              rows := t.rows.map (fun r =>
                r ++ List.replicate
                  (fieldsDict.filter
                    (fun fv => fv.1 ∉ t.schema.map Prod.fst)).length
                  PyVal.vNone) : SqlTable })
        else kv) := by
  obtain ⟨hs, hr⟩ :=
    widen_fold fieldsDict t (t.schema.map Prod.fst) hn (fun fv _ h => h)
  unfold create_table
  rw [hfind]
  apply List.map_congr_left
  intro kv _
  by_cases hkv : kv.1 = tableName
  · rw [if_pos hkv, if_pos hkv]
    have : (fieldsDict.foldl
        (fun acc fv =>
          if fv.1 ∈ t.schema.map Prod.fst then acc else add_column acc fv.1 fv.2)
        t) =
        { schema := t.schema ++
            fieldsDict.filter (fun fv => fv.1 ∉ t.schema.map Prod.fst),
          rows := t.rows.map (fun r =>
            r ++ List.replicate
              (fieldsDict.filter
                (fun fv => fv.1 ∉ t.schema.map Prod.fst)).length
              PyVal.vNone) : SqlTable } := by
      cases hfold : (fieldsDict.foldl
        (fun acc fv =>
          if fv.1 ∈ t.schema.map Prod.fst then acc else add_column acc fv.1 fv.2)
        t) with
      | mk s r =>
        rw [hfold] at hs hr
        simp only at hs hr
        rw [hs, hr]
    rw [this]
  · rw [if_neg hkv, if_neg hkv]

/-- Witness for C6: widening a concrete one-row table with a dictionary that
has one known and one new field adds exactly the new nullable column. -/
theorem create_table_widens_additively_witness :
    create_table
        [("customers",
          { schema := [("ListID", TEXT), ("Name", TEXT)],
            rows := [[PyVal.vStr "L1", PyVal.vStr "Acme"]] })]
        "customers" [("Name", TEXT), ("Balance", REAL)] "ListID" =
      [("customers",
        { schema := [("ListID", TEXT), ("Name", TEXT), ("Balance", REAL)],
          rows := [[PyVal.vStr "L1", PyVal.vStr "Acme", PyVal.vNone]] })] := by
  rw [create_table_widens_additively
    [("customers",
      { schema := [("ListID", TEXT), ("Name", TEXT)],
        rows := [[PyVal.vStr "L1", PyVal.vStr "Acme"]] })]
    "customers" "ListID" [("Name", TEXT), ("Balance", REAL)]
    { schema := [("ListID", TEXT), ("Name", TEXT)],
      rows := [[PyVal.vStr "L1", PyVal.vStr "Acme"]] }
    (by decide) (by decide)]
  decide

/-! ### Record upsert (`database/sqlite_db.py`: `insert_records`) -/

/-- Upsert-relevant table state: one entry per row, holding the primary-key
value and the stored modified-field value (`NULL` = `vNone`). -/
abbrev UpsertTable := List (PyVal × PyVal)

/-- `dict.get` on a string-valued dictionary. -/
def dictGetStr (d : List (String × String)) (k : String) : Option String :=
  (d.find? (fun kv => kv.1 = k)).map (fun kv => kv.2)

/-- The value-preparation loop of `insert_records`: Python booleans become
0/1, `"true"`/`"false"` strings bound for an `INTEGER` column become 0/1,
everything else is stored as-is. -/
def prepValue (fieldsDict : List (String × String)) (col : String) :
    PyVal → PyVal
  | .vBool b => .vInt (if b then 1 else 0)
  | .vStr s =>
    if dictGetStr fieldsDict col = some INTEGER ∧
        (pyLower s.toList = "true".toList ∨ pyLower s.toList = "false".toList) then
      .vInt (if pyLower s.toList = "true".toList then 1 else 0)
    else .vStr s
  | v => v

/-- How `insert_records` disposed of one record. -/
inductive UpsertDisp where
  | ins : UpsertDisp
  | upd : UpsertDisp
  | skp : UpsertDisp
deriving DecidableEq, Repr

/-- `SELECT modified_field ... WHERE primary_key = ?`: the stored
modified-field value of the row with the given key, if the row exists. -/
def lookupRow (tbl : UpsertTable) (pk : PyVal) : Option PyVal :=
  (tbl.find? (fun row => row.1 = pk)).map (fun row => row.2)

/-- `UPDATE ... WHERE primary_key = ?`: overwrite the stored modified-field
value of the matching row. -/
def updateRow (tbl : UpsertTable) (pk newMod : PyVal) : UpsertTable :=
  tbl.map (fun row => if row.1 = pk then (row.1, newMod) else row)

/-- The loop body of `SQLiteDatabase.insert_records` for one record: skip on
missing primary key; update unconditionally under `force_update`; otherwise
update when the incoming timestamp is strictly newer, skip when it is not,
and update when either timestamp is falsy or the comparison raises
`TypeError`; insert when no row has the key. (The schema-widening side
effect of the loop is `add_column`, modelled with `create_table` above; it
does not touch row data.) -/
def insertRecordStep (fieldsDict : List (String × String))
    (primaryKey modifiedField : String) (forceUpdate : Bool)
    (tbl : UpsertTable) (record : List (String × PyVal)) :
    UpsertDisp × UpsertTable :=
  let pkVal := pyGet record primaryKey
  if pkVal = PyVal.vNone then (.skp, tbl)
  else
    let newMod := prepValue fieldsDict modifiedField (pyGet record modifiedField)
    match lookupRow tbl pkVal with
    | some dbMod =>
      if forceUpdate then (.upd, updateRow tbl pkVal newMod)
      else
        let qbMod := pyGet record modifiedField
        if pyTruthy qbMod && pyTruthy dbMod then
          match pyGt qbMod dbMod with
          | .ok true => (.upd, updateRow tbl pkVal newMod)
          | .ok false => (.skp, tbl)
          | .error _ => (.upd, updateRow tbl pkVal newMod)
        else (.upd, updateRow tbl pkVal newMod)
    | none => (.ins, tbl ++ [(pkVal, newMod)])

/-- Bump the (insert, update, skip) counters for one disposition. -/
def bumpCounts : UpsertDisp → Nat × Nat × Nat → Nat × Nat × Nat
  | .ins, (i, u, s) => (i + 1, u, s)
  | .upd, (i, u, s) => (i, u + 1, s)
  | .skp, (i, u, s) => (i, u, s + 1)

/-- `SQLiteDatabase.insert_records`: run the per-record loop over all
records, returning the `(insert_count, update_count, skip_count)` triple and
the final table state. -/
def insert_records (fieldsDict : List (String × String))
    (primaryKey modifiedField : String) (forceUpdate : Bool) :
    UpsertTable → List (List (String × PyVal)) →
      (Nat × Nat × Nat) × UpsertTable
  | tbl, [] => ((0, 0, 0), tbl)
  | tbl, r :: rs =>
    let step := insertRecordStep fieldsDict primaryKey modifiedField forceUpdate tbl r
    let rest := insert_records fieldsDict primaryKey modifiedField forceUpdate step.2 rs
    (bumpCounts step.1 rest.1, rest.2)

/-- The dispositions `insert_records` assigns, in record order. -/
def insertDispositions (fieldsDict : List (String × String))
    (primaryKey modifiedField : String) (forceUpdate : Bool) :
    UpsertTable → List (List (String × PyVal)) → List UpsertDisp
  | _, [] => []
  | tbl, r :: rs =>
    let step := insertRecordStep fieldsDict primaryKey modifiedField forceUpdate tbl r
    step.1 ::
      insertDispositions fieldsDict primaryKey modifiedField forceUpdate step.2 rs

/-- C3: with `force_update` unset, a record whose key exists in the table is
updated when its incoming timestamp is strictly greater than the stored one,
skipped when it is not greater, and updated when the two timestamps cannot
be compared (either falsy, or the comparison raising `TypeError`); a record
whose key is absent is inserted; and the returned triple is the exact count
of inserted, updated and skipped records. -/
theorem insert_records_upsert_policy (fieldsDict : List (String × String))
    (primaryKey modifiedField : String) (tbl : UpsertTable)
    (record : List (String × PyVal))
    (hpk : pyGet record primaryKey ≠ PyVal.vNone) :
    (lookupRow tbl (pyGet record primaryKey) = none →
      (insertRecordStep fieldsDict primaryKey modifiedField false tbl record).1 =
        UpsertDisp.ins) ∧
    (∀ dbMod, lookupRow tbl (pyGet record primaryKey) = some dbMod →
      pyTruthy (pyGet record modifiedField) = true → pyTruthy dbMod = true →
      ((pyGt (pyGet record modifiedField) dbMod = .ok true →
        (insertRecordStep fieldsDict primaryKey modifiedField false tbl record).1 =
          UpsertDisp.upd) ∧
       (pyGt (pyGet record modifiedField) dbMod = .ok false →
        (insertRecordStep fieldsDict primaryKey modifiedField false tbl record).1 =
          UpsertDisp.skp) ∧
       (pyGt (pyGet record modifiedField) dbMod = .error () →
        (insertRecordStep fieldsDict primaryKey modifiedField false tbl record).1 =
          UpsertDisp.upd))) ∧
    (∀ dbMod, lookupRow tbl (pyGet record primaryKey) = some dbMod →
      (pyTruthy (pyGet record modifiedField) = false ∨ pyTruthy dbMod = false) →
      (insertRecordStep fieldsDict primaryKey modifiedField false tbl record).1 =
        UpsertDisp.upd) ∧
    (∀ (tbl0 : UpsertTable) (records : List (List (String × PyVal)))
        (force : Bool),
      (insert_records fieldsDict primaryKey modifiedField force tbl0 records).1 =
        ((insertDispositions fieldsDict primaryKey modifiedField force tbl0
            records).count UpsertDisp.ins,
         (insertDispositions fieldsDict primaryKey modifiedField force tbl0
            records).count UpsertDisp.upd,
         (insertDispositions fieldsDict primaryKey modifiedField force tbl0
            records).count UpsertDisp.skp)) := by
  refine ⟨?_, ?_, ?_, ?_⟩
  · intro hnone
    unfold insertRecordStep
    rw [if_neg hpk]
    simp only [hnone]
  · intro dbMod hsome hq hd
    refine ⟨?_, ?_, ?_⟩ <;> intro hcmp <;>
      · unfold insertRecordStep
        rw [if_neg hpk]
        simp [hsome, hq, hd, hcmp]
  · intro dbMod hsome hfalsy
    unfold insertRecordStep
    rw [if_neg hpk]
    have hff : (pyTruthy (pyGet record modifiedField) &&
        pyTruthy dbMod) = false := by
      rcases hfalsy with h | h <;> simp [h]
    simp [hsome, hff]
  · intro tbl0 records force
    induction records generalizing tbl0 with
    | nil => rfl
    | cons r rs ih =>
      rw [insert_records, insertDispositions]
      rw [ih]
      cases (insertRecordStep fieldsDict primaryKey modifiedField force tbl0 r).1 <;>
        simp [bumpCounts, List.count_cons]

/-- Witness for C3: a two-row table and four records exercising the insert,
newer-update, stale-skip and incomparable-update branches, with the returned
triple matching the dispositions. -/
theorem insert_records_upsert_policy_witness :
    (insertRecordStep [] "TxnID" "TimeModified" false
        [(PyVal.vStr "A", PyVal.vStr "2024-01-02")]
        [("TxnID", PyVal.vStr "B"), ("TimeModified", PyVal.vStr "2024-01-05")]).1 =
      UpsertDisp.ins ∧
    (insertRecordStep [] "TxnID" "TimeModified" false
        [(PyVal.vStr "A", PyVal.vStr "2024-01-02")]
        [("TxnID", PyVal.vStr "A"), ("TimeModified", PyVal.vStr "2024-01-05")]).1 =
      UpsertDisp.upd ∧
    (insertRecordStep [] "TxnID" "TimeModified" false
        [(PyVal.vStr "A", PyVal.vStr "2024-01-02")]
        [("TxnID", PyVal.vStr "A"), ("TimeModified", PyVal.vStr "2024-01-01")]).1 =
      UpsertDisp.skp ∧
    (insertRecordStep [] "TxnID" "TimeModified" false
        [(PyVal.vStr "A", PyVal.vStr "2024-01-02")]
        [("TxnID", PyVal.vStr "A"), ("TimeModified", PyVal.vInt 7)]).1 =
      UpsertDisp.upd ∧
    (insert_records [] "TxnID" "TimeModified" false
        [(PyVal.vStr "A", PyVal.vStr "2024-01-02")]
        [[("TxnID", PyVal.vStr "B"), ("TimeModified", PyVal.vStr "2024-01-05")],
         [("TxnID", PyVal.vStr "A"), ("TimeModified", PyVal.vStr "2024-01-01")]]).1 =
      (1, 0, 1) := by
  have h1 := insert_records_upsert_policy [] "TxnID" "TimeModified"
    [(PyVal.vStr "A", PyVal.vStr "2024-01-02")]
    [("TxnID", PyVal.vStr "B"), ("TimeModified", PyVal.vStr "2024-01-05")]
    (by decide)
  have h2 := insert_records_upsert_policy [] "TxnID" "TimeModified"
    [(PyVal.vStr "A", PyVal.vStr "2024-01-02")]
    [("TxnID", PyVal.vStr "A"), ("TimeModified", PyVal.vStr "2024-01-05")]
    (by decide)
  have h3 := insert_records_upsert_policy [] "TxnID" "TimeModified"
    [(PyVal.vStr "A", PyVal.vStr "2024-01-02")]
    [("TxnID", PyVal.vStr "A"), ("TimeModified", PyVal.vStr "2024-01-01")]
    (by decide)
  have h4 := insert_records_upsert_policy [] "TxnID" "TimeModified"
    [(PyVal.vStr "A", PyVal.vStr "2024-01-02")]
    [("TxnID", PyVal.vStr "A"), ("TimeModified", PyVal.vInt 7)]
    (by decide)
  refine ⟨h1.1 (by rfl),
    ((h2.2.1 (PyVal.vStr "2024-01-02") (by rfl) (by rfl) (by rfl)).1
      (by rfl)),
    ((h3.2.1 (PyVal.vStr "2024-01-02") (by rfl) (by rfl) (by rfl)).2.1
      (by rfl)),
    ((h4.2.1 (PyVal.vStr "2024-01-02") (by rfl) (by rfl) (by rfl)).2.2
      (by rfl)), ?_⟩
  rw [h1.2.2.2 [(PyVal.vStr "A", PyVal.vStr "2024-01-02")]
    [[("TxnID", PyVal.vStr "B"), ("TimeModified", PyVal.vStr "2024-01-05")],
     [("TxnID", PyVal.vStr "A"), ("TimeModified", PyVal.vStr "2024-01-01")]]
    false]
  rfl

/-! ### Header extraction (`extraction/data_extractor.py`:
`extract_com_record_data`, `_should_skip_property`) -/

/-- What accessing one COM property yields, covering the branches of the
`try` body in `extract_com_record_data`: the access raising, a property with
`GetValue` (whose call may itself raise), a reference object exposing
`ListID`/`FullName` (read through `get_com_value`, which never raises), the
`ORRate` wrapper, a plain non-callable attribute, or COM machinery
(callables/dispatch objects), which yields no value. -/
inductive PropShape where
  | raises : PropShape
  | hasGetValue : Except Unit (Option PyVal) → PropShape
  | reference : Option PyVal → Option PyVal → PropShape
  | orRate : Option PyVal → Option PyVal → PropShape
  | plainVal : Option PyVal → PropShape
  | machinery : PropShape
deriving Repr

/-- Python `str.isupper`: at least one cased character and no lowercase one
(ASCII model). -/
def pyIsUpper (s : String) : Bool :=
  s.toList.any (fun c => c.isUpper || c.isLower) && s.toList.all (fun c => !c.isLower)

/-- The fixed denylist in `DataExtractor._should_skip_property`. -/
def propertySkipList : List String :=
  ["Count", "GetAt", "Parent", "ElementName", "GetXML", "Type",
   "Invoke", "DataExtRetList", "ORSalesOrderLineRetList",
   "ORInvoiceLineRetList", "ORBillLineList", "ORPurchaseOrderLineRetList",
   "Clear", "Append", "QueryInterface", "AddRef", "Release",
   "GetTypeInfoCount", "GetTypeInfo", "GetIDsOfNames", "iterator",
   "iteratorID", "metaData", "CopyTo"]

/-- `name.startswith('_')`. -/
def startsWithUnderscore (name : String) : Bool :=
  match name.toList with
  | '_' :: _ => true
  | _ => false

/-- `DataExtractor._should_skip_property`. -/
def should_skip_property (name : String) : Bool :=
  startsWithUnderscore name || pyIsUpper name || name ∈ propertySkipList

/-- The entries one property contributes to the flat record map — the loop
body of `extract_com_record_data` (datetime conversion is the identity on
our value model and omitted). -/
def extractPropEntries (parentKey name : String) (shape : PropShape) :
    List (String × PyVal) :=
  if should_skip_property name then []
  else match shape with
    | .raises => []
    | .orRate r rp =>
      if name = "ORRate" then
        (match r with | some v => [("ORRate_Rate", v)] | none => []) ++
        (match rp with | some v => [("ORRate_RatePercent", v)] | none => [])
      else []
    | .hasGetValue (.error _) => []
    | .hasGetValue (.ok none) => []
    | .hasGetValue (.ok (some v)) => [(parentKey ++ name, v)]
    | .reference lid fn =>
      (match lid with | some v => [(parentKey ++ name ++ "_ListID", v)] | none => []) ++
      (match fn with | some v => [(parentKey ++ name ++ "_FullName", v)] | none => [])
    | .plainVal none => []
    | .plainVal (some v) => [(parentKey ++ name, v)]
    | .machinery => []

/-- The standard-field loop of `DataExtractor.extract_com_record_data` over
the record's `dir()` listing (property names from `dir()` are distinct, so
the accumulated dict is an append of per-property entries; the custom-field
pass reads a denylisted list property and is out of this loop). -/
def extract_com_record_data (parentKey : String)
    (props : List (String × PropShape)) : List (String × PyVal) :=
  props.foldl (fun data p => data ++ extractPropEntries parentKey p.1 p.2) []

/-- A COM record as the extractor sees it: enumerating its properties either
raises (unreadable record) or yields the property list. -/
def readComRecord (rec : Except Unit (List (String × PropShape)))
    (parentKey : String) : Except Unit (List (String × PyVal)) :=
  match rec with
  | .error e => .error e
  | .ok props => .ok (extract_com_record_data parentKey props)

theorem extract_com_record_data_append (parentKey : String)
    (l1 l2 : List (String × PropShape)) :
    extract_com_record_data parentKey (l1 ++ l2) =
      extract_com_record_data parentKey l1 ++
        extract_com_record_data parentKey l2 := by
  have haux : ∀ (l : List (String × PropShape)) (acc : List (String × PyVal)),
      l.foldl (fun data p => data ++ extractPropEntries parentKey p.1 p.2) acc =
        acc ++ l.foldl (fun data p => data ++ extractPropEntries parentKey p.1 p.2) [] := by
    intro l
    induction l with
    | nil => intro acc; simp
    | cons p ps ih =>
      intro acc
      rw [List.foldl_cons, List.foldl_cons, ih, List.nil_append,
        ih (extractPropEntries parentKey p.1 p.2), List.append_assoc]
  unfold extract_com_record_data
  rw [List.foldl_append, haux]

/-- C10: header extraction never raises because of a single malformed
property — extraction of a readable record always succeeds, a property whose
read raises contributes nothing while the remaining properties extract
exactly as they would without it, and extraction fails only when the record
object itself is unreadable. -/
theorem extraction_skips_malformed_property :
    (∀ (parentKey : String) (props : List (String × PropShape)),
      (readComRecord (.ok props) parentKey).isOk = true) ∧
    (∀ (parentKey name : String) (pre post : List (String × PropShape)),
      extract_com_record_data parentKey (pre ++ (name, PropShape.raises) :: post) =
        extract_com_record_data parentKey (pre ++ post)) ∧
    (∀ (parentKey name : String) (v : PyVal)
        (pre post : List (String × PropShape)),
      extract_com_record_data parentKey
          (pre ++ (name, PropShape.hasGetValue (.ok (some v))) :: post) =
        extract_com_record_data parentKey pre ++
          extractPropEntries parentKey name (PropShape.hasGetValue (.ok (some v))) ++
          extract_com_record_data parentKey post) ∧
    (∀ parentKey : String, readComRecord (.error ()) parentKey = .error ()) := by
  refine ⟨fun _ _ => rfl, ?_, ?_, fun _ => rfl⟩
  · intro parentKey name pre post
    rw [show (name, PropShape.raises) :: post = [(name, PropShape.raises)] ++ post
        from rfl,
      extract_com_record_data_append, extract_com_record_data_append,
      extract_com_record_data_append]
    have h1 : extract_com_record_data parentKey [(name, PropShape.raises)] = [] := by
      unfold extract_com_record_data extractPropEntries
      simp only [List.foldl_cons, List.foldl_nil, List.nil_append]
      split <;> rfl
    rw [h1]
    simp
  · intro parentKey name v pre post
    rw [show (name, PropShape.hasGetValue (.ok (some v))) :: post =
        [(name, PropShape.hasGetValue (.ok (some v)))] ++ post from rfl,
      extract_com_record_data_append, extract_com_record_data_append]
    have h1 : extract_com_record_data parentKey
        [(name, PropShape.hasGetValue (.ok (some v)))] =
        extractPropEntries parentKey name (PropShape.hasGetValue (.ok (some v))) := by
      unfold extract_com_record_data
      simp
    rw [h1, List.append_assoc]

/-! ### Orphan repair (`sync/record_sync.py`: `fix_orphaned_records`,
`_touch_modify_record`).  The tracker-table operations are declared abstract
in `database/base.py` but implemented by no adapter in the repository, so
they are modelled from the spec. -/

/-- One orphan-fix-attempt row: attempt count and last status. -/
structure FixAttempt where
  attemptCount : Nat
  status : String
deriving DecidableEq, Repr

/-- The orphan-fix tracking table, keyed by transaction id (the table name is
fixed throughout one repair pass and omitted from the key). -/
abbrev Tracker := List (String × FixAttempt)

/-- `RecordSyncHandler.max_fix_attempts = 3`. -/
def max_fix_attempts : Nat := 3

/-- Modelled from the spec: `record_fix_attempt` is declared abstract in
`database/base.py` and implemented by no adapter in the repository; per the
spec's Orphan Fix Attempt row it is "created on first detection, updated on
each attempt", incrementing the attempt counter and recording the outcome
status. -/
def record_fix_attempt (tr : Tracker) (txnId : String) (success : Bool) :
    Tracker :=
  let status := if success then FIXED else FAILED
  match tr.find? (fun kv => kv.1 = txnId) with
  | some _ => tr.map (fun kv =>
      if kv.1 = txnId then
        (kv.1, { attemptCount := kv.2.attemptCount + 1, status := status })
      else kv)
  | none => tr ++ [(txnId, { attemptCount := 1, status := status })]

/-- Modelled from the spec: `get_fix_attempt_status` is declared abstract in
`database/base.py` and implemented by no adapter in the repository; it
returns the fix-attempt row for a transaction, if any. -/
def get_fix_attempt_status (tr : Tracker) (txnId : String) :
    Option FixAttempt :=
  (tr.find? (fun kv => kv.1 = txnId)).map (fun kv => kv.2)

/-- Modelled from the spec: `get_failed_fix_attempts` is declared abstract in
`database/base.py` ("Get all records that failed after 3 attempts") and
implemented by no adapter in the repository; it lists the permanently failed
records. -/
def get_failed_fix_attempts (tr : Tracker) : List String :=
  (tr.filter (fun kv =>
    kv.2.status = FAILED && decide (kv.2.attemptCount ≥ max_fix_attempts))).map
    (fun kv => kv.1)

/-- The external responses one `_touch_modify_record` call observes. -/
structure TouchEnv where
  tableSupported : Bool
  raisesCom : Bool
  firstStatus : Int
  newEditSeq : Option String
  secondStatus : Int
deriving DecidableEq, Repr

/-- `RecordSyncHandler._touch_modify_record`: fails when the table has no
modify request, a COM error is raised, the first modify's status is nonzero,
or no new `EditSequence` comes back (falsy check); once the first modify
succeeded and the new token was captured, the result is `True` regardless of
the second (restoring) modify's status, which is only logged as a warning. -/
def touch_modify_record (env : TouchEnv) : Bool :=
  if !env.tableSupported then false
  else if env.raisesCom then false
  else if env.firstStatus ≠ 0 then false
  else match env.newEditSeq with
    | none => false
    | some es => if es = "" then false else true

/-- One detected orphaned record together with the touch-modify responses its
repair attempt would observe. -/
structure OrphanRec where
  txnId : String
  touch : TouchEnv
deriving DecidableEq, Repr

/-- The evolving state of one `fix_orphaned_records` pass: the tracker table
plus the returned stats dictionary. -/
structure FixRunState where
  tracker : Tracker
  detected : Nat
  attempted : Nat
  fixed : Nat
  failed : Nat
  skipped : Nat
deriving DecidableEq, Repr

/-- The skip decision at the top of the `fix_orphaned_records` loop body:
skip only with a prior attempt row, no forced retry, a status other than
`FIXED` (a fixed-but-still-orphaned record is retried) and an attempt count
at the cap. -/
def fixOrphanSkip (force : Bool) (tr : Tracker) (txnId : String) : Bool :=
  match get_fix_attempt_status tr txnId with
  | some fs =>
    !force && (fs.status != FIXED) && decide (fs.attemptCount ≥ max_fix_attempts)
  | none => false

/-- The loop body of `fix_orphaned_records` for one orphaned record: with a
prior attempt row and no forced retry, a record whose status is `FIXED` is
retried (warned about, never skipped), one at the attempt cap is skipped;
otherwise a touch-modify attempt is made and its outcome recorded. -/
def fixOrphanStep (force : Bool) (s : FixRunState) (r : OrphanRec) :
    FixRunState :=
  if fixOrphanSkip force s.tracker r.txnId then
    { s with skipped := s.skipped + 1 }
  else if touch_modify_record r.touch then
    { s with attempted := s.attempted + 1, fixed := s.fixed + 1,
             tracker := record_fix_attempt s.tracker r.txnId true }
  else
    { s with attempted := s.attempted + 1, failed := s.failed + 1,
             tracker := record_fix_attempt s.tracker r.txnId false }

/-- `RecordSyncHandler.fix_orphaned_records`: fold the loop body over the
detected orphans, starting from zeroed stats with `detected` set to the
number of detected records. -/
def fix_orphaned_records (tr : Tracker) (orphans : List OrphanRec)
    (force : Bool) : FixRunState :=
  orphans.foldl (fixOrphanStep force)
    { tracker := tr, detected := orphans.length, attempted := 0, fixed := 0,
      failed := 0, skipped := 0 }

theorem find?_map_update (tr : Tracker) (txnId : String) (kv : String × FixAttempt)
    (h : tr.find? (fun kv => kv.1 = txnId) = some kv) (f : FixAttempt → FixAttempt) :
    (tr.map (fun e => if e.1 = txnId then (e.1, f e.2) else e)).find?
        (fun e => e.1 = txnId) = some (txnId, f kv.2) := by
  induction tr with
  | nil => cases h
  | cons e es ih =>
    by_cases he : e.1 = txnId
    · rw [List.find?_cons_of_pos _ (by simpa using he)] at h
      cases h
      rw [List.map_cons, if_pos he,
        List.find?_cons_of_pos _ (by simpa using he), he]
    · rw [List.find?_cons_of_neg _ (by simpa using he)] at h
      rw [List.map_cons, if_neg he,
        List.find?_cons_of_neg _ (by simpa using he)]
      exact ih h

theorem get_record_fix_attempt (tr : Tracker) (txnId : String)
    (fs : FixAttempt) (success : Bool)
    (h : get_fix_attempt_status tr txnId = some fs) :
    get_fix_attempt_status (record_fix_attempt tr txnId success) txnId =
      some { attemptCount := fs.attemptCount + 1,
             status := if success then FIXED else FAILED } := by
  unfold get_fix_attempt_status at h ⊢
  unfold record_fix_attempt
  obtain ⟨kv, hfind, hkv⟩ := Option.map_eq_some'.mp h
  rw [hfind]
  rw [find?_map_update tr txnId kv hfind
    (fun a => { attemptCount := a.attemptCount + 1,
                status := if success then FIXED else FAILED })]
  rw [hkv]
  rfl

/-- C8 as amended: with no forced retry, a detected orphan whose attempt row
is at the cap and whose status is not "fixed" is skipped — the pass makes no
new attempt and leaves its tracker state untouched; one at the cap with
status "failed" appears in the permanently-failed report; and an orphan
whose attempt count is below the cap is attempted, its counter incremented
by the outcome recording.  The pass reports every detected orphan. -/
theorem orphan_repair_attempt_cap :
    (∀ (tr : Tracker) (orphans : List OrphanRec) (force : Bool),
      (fix_orphaned_records tr orphans force).detected = orphans.length) ∧
    (∀ (s : FixRunState) (r : OrphanRec) (fs : FixAttempt),
      get_fix_attempt_status s.tracker r.txnId = some fs →
      fs.status ≠ FIXED → fs.attemptCount ≥ max_fix_attempts →
      fixOrphanStep false s r = { s with skipped := s.skipped + 1 }) ∧
    (∀ (tr : Tracker) (txnId : String) (fs : FixAttempt),
      get_fix_attempt_status tr txnId = some fs →
      fs.status = FAILED → fs.attemptCount ≥ max_fix_attempts →
      txnId ∈ get_failed_fix_attempts tr) ∧
    (∀ (s : FixRunState) (r : OrphanRec) (fs : FixAttempt) (force : Bool),
      get_fix_attempt_status s.tracker r.txnId = some fs →
      fs.attemptCount < max_fix_attempts →
      (fixOrphanStep force s r).attempted = s.attempted + 1 ∧
      get_fix_attempt_status (fixOrphanStep force s r).tracker r.txnId =
        some { attemptCount := fs.attemptCount + 1,
               status := if touch_modify_record r.touch then FIXED else FAILED }) := by
  refine ⟨?_, ?_, ?_, ?_⟩
  · intro tr orphans force
    unfold fix_orphaned_records
    have haux : ∀ (os : List OrphanRec) (s : FixRunState),
        (os.foldl (fixOrphanStep force) s).detected = s.detected := by
      intro os
      induction os with
      | nil => intro s; rfl
      | cons r rs ih =>
        intro s
        rw [List.foldl_cons, ih]
        unfold fixOrphanStep
        split
        · rfl
        · split <;> rfl
    rw [haux]
  · intro s r fs hget hst hcap
    have hskip : fixOrphanSkip false s.tracker r.txnId = true := by
      unfold fixOrphanSkip
      rw [hget]
      simp [hst, hcap]
    unfold fixOrphanStep
    rw [hskip]
    rfl
  · intro tr txnId fs hget hst hcap
    unfold get_fix_attempt_status at hget
    obtain ⟨kv, hfind, hkv⟩ := Option.map_eq_some'.mp hget
    have hmem : kv ∈ tr := List.mem_of_find?_eq_some hfind
    have hpred : kv.1 = txnId := by
      have := List.find?_some hfind
      simpa using this
    unfold get_failed_fix_attempts
    refine List.mem_map.mpr ⟨kv, ?_, hpred⟩
    refine List.mem_filter.mpr ⟨hmem, ?_⟩
    rw [hkv]
    simp [hst, hcap]
  · intro s r fs force hget hlt
    have hskip : fixOrphanSkip force s.tracker r.txnId = false := by
      unfold fixOrphanSkip
      rw [hget]
      simp [Nat.not_le.mpr hlt]
    constructor
    · unfold fixOrphanStep
      rw [hskip]
      cases h : touch_modify_record r.touch <;> simp [h]
    · unfold fixOrphanStep
      rw [hskip]
      cases h : touch_modify_record r.touch
      · exact get_record_fix_attempt s.tracker r.txnId fs false hget
      · exact get_record_fix_attempt s.tracker r.txnId fs true hget

/-- Counterexample to C8 as stated: a detected orphan whose attempt count is
at the cap but whose recorded status is "fixed" is retried (attempted), not
skipped, because the fixed-but-still-orphaned check fires first. -/
theorem orphan_cap_fixed_status_retried_counterexample :
    get_fix_attempt_status [("T1", { attemptCount := 3, status := FIXED })] "T1" =
      some { attemptCount := 3, status := FIXED } ∧
    max_fix_attempts ≤ 3 ∧
    (fix_orphaned_records [("T1", { attemptCount := 3, status := FIXED })]
        [{ txnId := "T1",
           touch := { tableSupported := true, raisesCom := false,
                      firstStatus := 0, newEditSeq := some "ES2",
                      secondStatus := 0 } }] false).skipped = 0 ∧
    (fix_orphaned_records [("T1", { attemptCount := 3, status := FIXED })]
        [{ txnId := "T1",
           touch := { tableSupported := true, raisesCom := false,
                      firstStatus := 0, newEditSeq := some "ES2",
                      secondStatus := 0 } }] false).attempted = 1 := by
  refine ⟨rfl, by decide, rfl, rfl⟩

/-- Witness for C8 as amended: a concrete capped-and-failed orphan is
skipped and reported, a concrete below-cap orphan is attempted with its
counter incremented. -/
theorem orphan_repair_attempt_cap_witness :
    (fixOrphanStep false
        { tracker := [("T2", { attemptCount := 3, status := FAILED })],
          detected := 1, attempted := 0, fixed := 0, failed := 0, skipped := 0 }
        { txnId := "T2",
          touch := { tableSupported := true, raisesCom := false,
                     firstStatus := 0, newEditSeq := some "ES2",
                     secondStatus := 0 } } =
      { tracker := [("T2", { attemptCount := 3, status := FAILED })],
        detected := 1, attempted := 0, fixed := 0, failed := 0, skipped := 1 }) ∧
    "T2" ∈ get_failed_fix_attempts
      [("T2", { attemptCount := 3, status := FAILED })] ∧
    (fixOrphanStep false
        { tracker := [("T3", { attemptCount := 1, status := FAILED })],
          detected := 1, attempted := 0, fixed := 0, failed := 0, skipped := 0 }
        { txnId := "T3",
          touch := { tableSupported := true, raisesCom := false,
                     firstStatus := 0, newEditSeq := some "ES2",
                     secondStatus := 0 } }).attempted = 1 ∧
    (fix_orphaned_records [] [] false).detected = 0 := by
  obtain ⟨hdet, hskip, hrep, hatt⟩ := orphan_repair_attempt_cap
  refine ⟨hskip
      { tracker := [("T2", { attemptCount := 3, status := FAILED })],
        detected := 1, attempted := 0, fixed := 0, failed := 0, skipped := 0 }
      { txnId := "T2",
        touch := { tableSupported := true, raisesCom := false,
                   firstStatus := 0, newEditSeq := some "ES2",
                   secondStatus := 0 } }
      { attemptCount := 3, status := FAILED } rfl (by decide) (by decide),
    hrep [("T2", { attemptCount := 3, status := FAILED })] "T2"
      { attemptCount := 3, status := FAILED } rfl rfl (by decide),
    (hatt
      { tracker := [("T3", { attemptCount := 1, status := FAILED })],
        detected := 1, attempted := 0, fixed := 0, failed := 0, skipped := 0 }
      { txnId := "T3",
        touch := { tableSupported := true, raisesCom := false,
                   firstStatus := 0, newEditSeq := some "ES2",
                   secondStatus := 0 } }
      { attemptCount := 1, status := FAILED } false rfl (by decide)).1,
    hdet [] [] false⟩

/-- C9: the double modification is judged by its first step alone — whenever
the first modify succeeds and the new version token is captured, the
touch-modify reports success for every second-modify status, and the attempt
is recorded as fixed; moreover a record whose prior status is "fixed" but
which is still detected as orphaned is retried rather than skipped. -/
theorem touch_modify_first_step_verdict :
    (∀ env : TouchEnv, env.tableSupported = true → env.raisesCom = false →
      env.firstStatus = 0 → ∀ es : String, env.newEditSeq = some es →
      es ≠ "" → touch_modify_record env = true) ∧
    (∀ (s : FixRunState) (r : OrphanRec),
      touch_modify_record r.touch = true →
      fixOrphanSkip false s.tracker r.txnId = false →
      (fixOrphanStep false s r).fixed = s.fixed + 1 ∧
      (fixOrphanStep false s r).tracker =
        record_fix_attempt s.tracker r.txnId true) ∧
    (∀ (s : FixRunState) (r : OrphanRec) (fs : FixAttempt),
      get_fix_attempt_status s.tracker r.txnId = some fs →
      fs.status = FIXED →
      (fixOrphanStep false s r).skipped = s.skipped ∧
      (fixOrphanStep false s r).attempted = s.attempted + 1) := by
  refine ⟨?_, ?_, ?_⟩
  · intro env h1 h2 h3 es h4 h5
    unfold touch_modify_record
    rw [h1, h2, h3, h4]
    simp [h5]
  · intro s r htouch hskip
    unfold fixOrphanStep
    rw [hskip]
    simp only [Bool.false_eq_true, if_false]
    rw [if_pos htouch]
    exact ⟨rfl, rfl⟩
  · intro s r fs hget hst
    have hskip : fixOrphanSkip false s.tracker r.txnId = false := by
      unfold fixOrphanSkip
      rw [hget]
      simp [hst]
    unfold fixOrphanStep
    rw [hskip]
    simp only [Bool.false_eq_true, if_false]
    constructor
    · split <;> rfl
    · split <;> rfl

/-- Witness for C9: a concrete touch-modify whose second step fails is still
a success and recorded as fixed, and a concrete fixed-but-orphaned record is
attempted again. -/
theorem touch_modify_first_step_verdict_witness :
    touch_modify_record
      { tableSupported := true, raisesCom := false, firstStatus := 0,
        newEditSeq := some "ES2", secondStatus := 3175 } = true ∧
    (fixOrphanStep false
        { tracker := [("T4", { attemptCount := 1, status := FIXED })],
          detected := 1, attempted := 0, fixed := 0, failed := 0, skipped := 0 }
        { txnId := "T4",
          touch := { tableSupported := true, raisesCom := false,
                     firstStatus := 0, newEditSeq := some "ES2",
                     secondStatus := 3175 } }).fixed = 1 ∧
    (fixOrphanStep false
        { tracker := [("T4", { attemptCount := 1, status := FIXED })],
          detected := 1, attempted := 0, fixed := 0, failed := 0, skipped := 0 }
        { txnId := "T4",
          touch := { tableSupported := true, raisesCom := false,
                     firstStatus := 0, newEditSeq := some "ES2",
                     secondStatus := 3175 } }).attempted = 1 := by
  obtain ⟨h1, h2, h3⟩ := touch_modify_first_step_verdict
  refine ⟨h1
      { tableSupported := true, raisesCom := false, firstStatus := 0,
        newEditSeq := some "ES2", secondStatus := 3175 }
      rfl rfl rfl "ES2" rfl (by decide), ?_, ?_⟩
  · exact (h2
      { tracker := [("T4", { attemptCount := 1, status := FIXED })],
        detected := 1, attempted := 0, fixed := 0, failed := 0, skipped := 0 }
      { txnId := "T4",
        touch := { tableSupported := true, raisesCom := false,
                   firstStatus := 0, newEditSeq := some "ES2",
                   secondStatus := 3175 } } rfl rfl).1
  · exact (h3
      { tracker := [("T4", { attemptCount := 1, status := FIXED })],
        detected := 1, attempted := 0, fixed := 0, failed := 0, skipped := 0 }
      { txnId := "T4",
        touch := { tableSupported := true, raisesCom := false,
                   firstStatus := 0, newEditSeq := some "ES2",
                   secondStatus := 3175 } }
      { attemptCount := 1, status := FIXED } rfl rfl).2

/-! ### Run orchestration and error classes (`main.py`: `sync_tables`,
`main`; `sync/record_sync.py`: `sync_table`, `_handle_com_error`) -/

/-- What one `RecordSyncHandler.sync_table` call runs into: normal
completion with a final status, a busy COM error, a fatal session-invalid
COM error, or some other exception. -/
inductive EntitySyncOutcome where
  | completes : String → EntitySyncOutcome
  | busyCom : EntitySyncOutcome
  | fatalCom : EntitySyncOutcome
  | otherError : EntitySyncOutcome
deriving DecidableEq, Repr

/-- `sync_table` with `_handle_com_error`: busy errors record `BUSY` and
return, other exceptions record `ERROR` and return, and only the
session-invalid (fatal) COM error is re-raised, recording nothing. Result:
(status recorded for this entity, whether the call raises). -/
def sync_table_result : EntitySyncOutcome → Option String × Bool
  | .completes st => (some st, false)
  | .busyCom => (some BUSY, false)
  | .fatalCom => (none, true)
  | .otherError => (some ERROR, false)

/-- One entity's fate in a run: whether its sync was attempted at all and
which status its sync-state row ends with. -/
structure EntityAttempt where
  name : String
  attempted : Bool
  recorded : Option String
deriving DecidableEq, Repr, Inhabited

/-- `main.sync_tables`: each entity's `sync_table` call sits in a
`try/except Exception: continue`, so every exception — the re-raised fatal
one included — is caught and the loop proceeds to the next entity. -/
def sync_tables : List (String × EntitySyncOutcome) → List EntityAttempt
  | [] => []
  | e :: es =>
    { name := e.1, attempted := true, recorded := (sync_table_result e.2).1 } ::
      sync_tables es

/-- `main.main` when the initial `qb.connect()` fails: every configured
table's sync-state row is set to `NO_CONNECTION` and no sync is attempted. -/
def mark_no_connection (tables : List String) : List EntityAttempt :=
  tables.map (fun n =>
    { name := n, attempted := false, recorded := some NO_CONNECTION })

/-- Counterexample to C4 as stated: after a fatal session-invalid error on
the first entity, the second entity is still attempted and ends with its own
status, not skipped and not marked with the connection-failure status. -/
theorem fatal_error_does_not_skip_siblings_counterexample :
    sync_tables [("invoices", .fatalCom), ("customers", .completes SUCCESS)] =
      [{ name := "invoices", attempted := true, recorded := none },
       { name := "customers", attempted := true, recorded := some SUCCESS }] ∧
    (sync_tables [("invoices", .fatalCom),
        ("customers", .completes SUCCESS)])[1]!.attempted = true ∧
    (sync_tables [("invoices", .fatalCom),
        ("customers", .completes SUCCESS)])[1]!.recorded ≠ some NO_CONNECTION := by
  refine ⟨rfl, rfl, by decide⟩

/-- C4 as amended: a fatal session-invalid error is re-raised by the
COM-error handler but caught by the per-entity handler in `sync_tables`, so
the run is never aborted — every configured entity is attempted, with its
own outcome, whatever errors its predecessors hit; all entities are marked
`NO_CONNECTION`, unattempted, only when the initial connection fails before
the run; and errors of any non-fatal class in one entity likewise leave
siblings attempted. -/
theorem fatal_error_run_continues_siblings :
    (∀ entities : List (String × EntitySyncOutcome),
      ∀ a ∈ sync_tables entities, a.attempted = true) ∧
    (∀ entities : List (String × EntitySyncOutcome),
      (sync_tables entities).map (fun a => a.name) = entities.map Prod.fst) ∧
    (∀ tables : List String, ∀ a ∈ mark_no_connection tables,
      a.attempted = false ∧ a.recorded = some NO_CONNECTION) := by
  refine ⟨?_, ?_, ?_⟩
  · intro entities
    induction entities with
    | nil => intro a ha; cases ha
    | cons e es ih =>
      intro a ha
      rcases List.mem_cons.mp ha with rfl | ha2
      · rfl
      · exact ih a ha2
  · intro entities
    induction entities with
    | nil => rfl
    | cons e es ih => simp [sync_tables, ih]
  · intro tables a ha
    obtain ⟨n, -, rfl⟩ := List.mem_map.mp ha
    exact ⟨rfl, rfl⟩

/-- Witness for C4 as amended: the concrete fatal-then-success run from the
counterexample has both entities attempted, neither marked `NO_CONNECTION`,
and the connect-failure path marks both unattempted `NO_CONNECTION`. -/
theorem fatal_error_run_continues_siblings_witness :
    (∀ a ∈ sync_tables [("invoices", EntitySyncOutcome.fatalCom),
        ("customers", EntitySyncOutcome.completes SUCCESS)],
      a.attempted = true) ∧
    (∀ a ∈ mark_no_connection ["invoices", "customers"],
      a.attempted = false ∧ a.recorded = some NO_CONNECTION) := by
  obtain ⟨h1, -, h3⟩ := fatal_error_run_continues_siblings
  exact ⟨h1 [("invoices", EntitySyncOutcome.fatalCom),
      ("customers", EntitySyncOutcome.completes SUCCESS)],
    h3 ["invoices", "customers"]⟩

/-! ### Sync-state persistence and the iterator loop
(`database/sqlite_db.py`: `update_sync_timestamp`;
`sync/record_sync.py`: `_sync_with_iterator`, `_handle_qb_error`) -/

/-- One `sync_log` row for a table (duration and error message are recorded
but irrelevant to the watermark and omitted). -/
structure SyncLogRow where
  last_sync_time : Option String
  record_count : Nat
  last_status : String
  consecutive_failures : Nat
deriving DecidableEq, Repr

/-- The statuses `update_sync_timestamp` counts as failures. -/
def failureStatuses : List String := [LOCKED, BUSY, ERROR, EDITING]

/-- Python truthiness of an optional string (`None` and `""` falsy). -/
def optTruthy : Option String → Bool
  | none => false
  | some s => s ≠ ""

/-- `SQLiteDatabase.update_sync_timestamp` for one table: bump or reset the
consecutive-failure counter; pick the timestamp to write (the supplied
maximum for a truthy success, the table's own `MAX(TimeModified)` — or now —
for a success without one, the previous stored value — or now — otherwise);
then upsert the row, where the SQL `CASE WHEN` keeps the stored
`last_sync_time` and `record_count` unless the incoming status is
`SUCCESS`. `tableMax` is `MAX(TimeModified)` when the table and column exist
with a non-null maximum, else `none`. -/
def update_sync_timestamp (log : Option SyncLogRow) (tableMax : Option String)
    (now : String) (recordCount : Nat) (status : String)
    (maxTimeModified : Option String) : SyncLogRow :=
  let currentFailures := match log with
    | some row => row.consecutive_failures
    | none => 0
  let consecutiveFailures :=
    if status ∈ failureStatuses then currentFailures + 1 else 0
  let prevOrNow := match log with
    | some row => match row.last_sync_time with
      | some t => if t = "" then now else t
      | none => now
    | none => now
  let syncTimestamp :=
    if status = SUCCESS ∧ optTruthy maxTimeModified then
      maxTimeModified.getD now
    else if status = SUCCESS then
      match tableMax with
      | some m => m
      | none => now
    else prevOrNow
  match log with
  | none =>
    { last_sync_time := some syncTimestamp, record_count := recordCount,
      last_status := status, consecutive_failures := consecutiveFailures }
  | some row =>
    { last_sync_time :=
        if status = SUCCESS then some syncTimestamp else row.last_sync_time,
      record_count := if status = SUCCESS then recordCount else row.record_count,
      last_status := status, consecutive_failures := consecutiveFailures }

/-- `_handle_qb_error`'s status-code mapping. -/
def qbErrorStatus (code : Int) : String :=
  if code = 3175 then LOCKED
  else if code = 3180 then EDITING
  else if code = 3210 then NOT_FOUND
  else ERROR

/-- One page response of the iterator protocol: status code, the
`TimeModified` value of each record in the batch, and the iterator's
remaining count. -/
structure PageResponse where
  statusCode : Int
  records : List (Option String)
  remaining : Nat
deriving Repr

/-- The per-batch maximum `TimeModified` tracking of `_extract_batch_data`:
falsy timestamps are ignored, otherwise keep the running string-maximum. -/
def foldBatchMax (recs : List (Option String)) (cur : Option String) :
    Option String :=
  recs.foldl
    (fun acc tm =>
      match tm with
      | none => acc
      | some t =>
        if t = "" then acc
        else match acc with
          | none => some t
          | some m => if charListLt m.toList t.toList then some t else acc)
    cur

/-- The merge of a batch maximum into the running maximum in
`_sync_with_iterator`. -/
def mergeMax (maxTm batchMax : Option String) : Option String :=
  match batchMax with
  | none => maxTm
  | some b =>
    if b = "" then maxTm
    else match maxTm with
      | none => some b
      | some m => if charListLt m.toList b.toList then some b else maxTm

/-- The page loop of `_sync_with_iterator`, as the list of
`update_sync_timestamp` calls (status, `max_time_modified`) it issues: a
status-1 page, an empty batch, a zero remaining count or an exhausted
response stream break the loop and the final call records `SUCCESS` with the
tracked maximum; a page with any other nonzero status first records the
mapped error status via `_handle_qb_error`, breaks — and the final call
still records `SUCCESS` with the maximum accumulated so far.  (Busy COM
errors retry the same page and are invisible here; the periodic and final
data flushes do not touch the sync log.) -/
def syncWithIterator : Option String → List PageResponse →
    List (String × Option String)
  | maxTm, [] => [(SUCCESS, maxTm)]
  | maxTm, page :: rest =>
    if page.statusCode = 1 then [(SUCCESS, maxTm)]
    else if page.statusCode ≠ 0 then
      [(qbErrorStatus page.statusCode, none), (SUCCESS, maxTm)]
    else if page.records.isEmpty then [(SUCCESS, maxTm)]
    else
      let maxTm2 := mergeMax maxTm (foldBatchMax page.records none)
      if page.remaining = 0 then [(SUCCESS, maxTm2)]
      else syncWithIterator maxTm2 rest

/-- Apply a run's `update_sync_timestamp` calls to the stored sync-log row. -/
def sync_log_after (initial : Option SyncLogRow) (tableMax : Option String)
    (now : String) (recordCount : Nat)
    (calls : List (String × Option String)) : Option SyncLogRow :=
  calls.foldl
    (fun log call =>
      some (update_sync_timestamp log tableMax now recordCount call.1 call.2))
    initial

/-- C1 failing run: a run whose first page succeeds with timestamps up to
2024-01-03 and whose second page returns the fatal status code 3175 records
`LOCKED` and then still ends by recording `SUCCESS`, advancing the stored
watermark from 2024-01-01 to 2024-01-03 although the run hit a fatal page
error — the bug behind the claim's final clause. -/
theorem qb_error_run_still_advances_watermark :
    syncWithIterator none
        [{ statusCode := 0,
           records := [some "2024-01-02T00:00:00", some "2024-01-03T00:00:00"],
           remaining := 5 },
         { statusCode := 3175, records := [], remaining := 3 }] =
      [(LOCKED, none), (SUCCESS, some "2024-01-03T00:00:00")] ∧
    sync_log_after
        (some { last_sync_time := some "2024-01-01T00:00:00",
                record_count := 10, last_status := SUCCESS,
                consecutive_failures := 0 })
        (some "2024-01-03T00:00:00") "2024-06-01T00:00:00" 12
        (syncWithIterator none
          [{ statusCode := 0,
             records := [some "2024-01-02T00:00:00", some "2024-01-03T00:00:00"],
             remaining := 5 },
           { statusCode := 3175, records := [], remaining := 3 }]) =
      some { last_sync_time := some "2024-01-03T00:00:00", record_count := 12,
             last_status := SUCCESS, consecutive_failures := 0 } ∧
    (some "2024-01-03T00:00:00" : Option String) ≠ some "2024-01-01T00:00:00" ∧
    qbErrorStatus 3175 ≠ SUCCESS := by
  refine ⟨rfl, rfl, by decide, by decide⟩

/-! ### Line-item replacement (`sync/record_sync.py`: `_save_data`;
`database/sqlite_db.py`: `delete_records`, `insert_records_batch`) -/

/-- One line-item row: the owning header's key value (the parent key
column), the line primary key (`TxnLineID`, or the synthesized
`line_item_id`), and the remaining extracted fields, opaque here. -/
structure LineRow where
  parent : String
  pk : String
  payload : String
deriving DecidableEq, Repr

/-- `SQLiteDatabase.delete_records(line_table, key_field, parent_id)`:
`DELETE ... WHERE key_field = parent_id`. -/
def delete_records (t : List LineRow) (parentId : String) : List LineRow :=
  t.filter (fun r => r.parent ≠ parentId)

/-- One `INSERT OR REPLACE` keyed on the line primary key: any row with the
same key is replaced, the new row lands at the end. -/
def insertOrReplace (t : List LineRow) (r : LineRow) : List LineRow :=
  t.filter (fun x => x.pk ≠ r.pk) ++ [r]

/-- `SQLiteDatabase.insert_records_batch`: all rows inserted in one
transaction with `INSERT OR REPLACE`. -/
def insert_records_batch (t : List LineRow) (rows : List LineRow) :
    List LineRow :=
  rows.foldl insertOrReplace t

/-- Python dict-key order for `line_items_by_parent`: parents in first
occurrence order, deduplicated. -/
def firstOccurrences : List String → List String
  | [] => []
  | x :: xs => x :: firstOccurrences (xs.filter (fun y => y ≠ x))
termination_by l => l.length
decreasing_by
  simp only [List.length_cons]
  exact Nat.lt_succ_of_le (List.length_filter_le _ xs)

/-- Chunking of the parent-id list (`range(0, len(parent_ids), 50)`). -/
def listChunks {α : Type} : Nat → List α → List (List α)
  | _, [] => []
  | 0, l => [l]
  | n + 1, x :: xs => ((x :: xs).take (n + 1)) :: listChunks (n + 1) (xs.drop n)
termination_by _ l => l.length
decreasing_by
  simp only [List.length_cons, List.length_drop]
  omega

/-- `parent_batch_size = 50` in `_save_data`. -/
def parent_batch_size : Nat := 50

/-- The keys of `line_items_by_parent`: parents of the extracted line rows,
in first-occurrence order (rows with a falsy parent id are not grouped). -/
def lineParents (rows : List LineRow) : List String :=
  firstOccurrences ((rows.filter (fun r => r.parent ≠ "")).map (fun r => r.parent))

/-- The rows of one parent, in extraction order
(`line_items_by_parent[parent_id]`, and the query behind the claim). -/
def rowsOfParent (rows : List LineRow) (p : String) : List LineRow :=
  rows.filter (fun r => r.parent = p)

/-- One iteration of the parent-batch loop in `_save_data`: collect the
batch's line items parent by parent, delete the existing line items of every
parent in the batch, then bulk-insert the collected rows. -/
def processParentChunk (rows : List LineRow) (t : List LineRow)
    (chunk : List String) : List LineRow :=
  let chunkRows := (chunk.map (rowsOfParent rows)).flatten
  insert_records_batch (chunk.foldl delete_records t) chunkRows

/-- The line-item half of `RecordSyncHandler._save_data`: group the new rows
by parent and process the parents in chunks of `parent_batch_size`. -/
def replace_line_items (t : List LineRow) (rows : List LineRow) :
    List LineRow :=
  (listChunks parent_batch_size (lineParents rows)).foldl
    (processParentChunk rows) t

theorem mem_firstOccurrences : ∀ {l : List String} {a : String},
    a ∈ firstOccurrences l ↔ a ∈ l := by
  intro l
  induction l using firstOccurrences.induct with
  | case1 => intro a; simp [firstOccurrences]
  | case2 x xs ih =>
    intro a
    rw [firstOccurrences]
    constructor
    · intro h
      rcases List.mem_cons.mp h with rfl | h2
      · exact List.mem_cons_self _ _
      · exact List.mem_cons_of_mem _ (List.mem_of_mem_filter (ih.mp h2))
    · intro h
      rcases List.mem_cons.mp h with rfl | h2
      · exact List.mem_cons_self _ _
      · by_cases hax : a = x
        · exact hax ▸ List.mem_cons_self _ _
        · exact List.mem_cons_of_mem _
            (ih.mpr (List.mem_filter.mpr ⟨h2, by simpa using hax⟩))

theorem nodup_firstOccurrences : ∀ l : List String,
    (firstOccurrences l).Nodup := by
  intro l
  induction l using firstOccurrences.induct with
  | case1 => simp [firstOccurrences]
  | case2 x xs ih =>
    rw [firstOccurrences]
    refine List.nodup_cons.mpr ⟨?_, ih⟩
    intro hmem
    have := List.mem_filter.mp (mem_firstOccurrences.mp hmem)
    simp at this

theorem join_listChunks {α : Type} : ∀ (n : Nat) (l : List α),
    (listChunks n l).flatten = l := by
  intro n l
  induction n, l using listChunks.induct with
  | case1 n => simp [listChunks]
  | case2 l hne =>
    rw [listChunks]
    · simp
    · exact hne
  | case3 n x xs ih =>
    rw [listChunks]
    rw [List.flatten_cons, ih]
    rw [show (x :: xs).take (n + 1) = x :: xs.take n from rfl]
    simp [List.take_append_drop]

theorem rowsOf_delete (t : List LineRow) (p q : String) :
    rowsOfParent (delete_records t q) p =
      if p = q then [] else rowsOfParent t p := by
  unfold rowsOfParent delete_records
  rw [List.filter_filter]
  by_cases hpq : p = q
  · subst hpq
    rw [if_pos rfl]
    apply List.filter_eq_nil_iff.mpr
    intro r _
    simp
  · rw [if_neg hpq]
    apply List.filter_congr
    intro r _
    by_cases hr : r.parent = p
    · simp only [hr, decide_True, Bool.true_and, decide_eq_true_eq]
      simp [fun h : p = q => hpq h]
    · simp [hr]

theorem rowsOf_append (l1 l2 : List LineRow) (p : String) :
    rowsOfParent (l1 ++ l2) p = rowsOfParent l1 p ++ rowsOfParent l2 p := by
  unfold rowsOfParent
  exact List.filter_append _ _

theorem rowsOf_insertOrReplace (t : List LineRow) (r : LineRow) (p : String) :
    rowsOfParent (insertOrReplace t r) p =
      (rowsOfParent t p).filter (fun x => x.pk ≠ r.pk) ++
        (if r.parent = p then [r] else []) := by
  unfold insertOrReplace
  rw [rowsOf_append]
  congr 1
  · unfold rowsOfParent
    rw [List.filter_filter, List.filter_filter]
    apply List.filter_congr
    intro x _
    rw [Bool.and_comm]
  · unfold rowsOfParent
    by_cases hrp : r.parent = p <;> simp [hrp]

theorem filter_pk_ne_eq_self {l : List LineRow} {c : String}
    (h : ∀ x ∈ l, x.pk ≠ c) : l.filter (fun x => x.pk ≠ c) = l := by
  apply List.filter_eq_self.mpr
  intro x hx
  simpa using h x hx

theorem rowsOf_insert_batch :
    ∀ (rs : List LineRow) (t : List LineRow) (p : String),
    (rs.map (fun r => r.pk)).Nodup →
    (∀ r ∈ rs, r.pk ∉ (rowsOfParent t p).map (fun x => x.pk)) →
    rowsOfParent (insert_records_batch t rs) p =
      rowsOfParent t p ++ rowsOfParent rs p := by
  intro rs
  induction rs with
  | nil =>
    intro t p _ _
    simp [insert_records_batch, rowsOfParent]
  | cons r rs ih =>
    intro t p hnd hdisj
    rw [List.map_cons, List.nodup_cons] at hnd
    have hfix : rowsOfParent (insertOrReplace t r) p =
        rowsOfParent t p ++ (if r.parent = p then [r] else []) := by
      rw [rowsOf_insertOrReplace]
      congr 1
      apply filter_pk_ne_eq_self
      intro x hx hEq
      exact hdisj r (List.mem_cons_self _ _) (hEq ▸ List.mem_map_of_mem _ hx)
    have hdisj2 : ∀ r' ∈ rs,
        r'.pk ∉ (rowsOfParent (insertOrReplace t r) p).map (fun x => x.pk) := by
      intro r' hr' hmem
      rw [hfix, List.map_append, List.mem_append] at hmem
      rcases hmem with h | h
      · exact hdisj r' (List.mem_cons_of_mem _ hr') h
      · have hpk : r'.pk = r.pk := by
          by_cases hrp : r.parent = p
          · simpa [hrp] using h
          · simp [hrp] at h
        exact hnd.1 (hpk ▸ List.mem_map_of_mem _ hr')
    rw [show insert_records_batch t (r :: rs) =
        insert_records_batch (insertOrReplace t r) rs from rfl]
    rw [ih (insertOrReplace t r) p hnd.2 hdisj2, hfix, List.append_assoc]
    congr 1
    unfold rowsOfParent
    rw [List.filter_cons]
    by_cases hrp : r.parent = p <;> simp [hrp]

theorem rowsOf_deletes_fold :
    ∀ (chunk : List String) (t : List LineRow) (p : String),
    rowsOfParent (chunk.foldl delete_records t) p =
      if p ∈ chunk then [] else rowsOfParent t p := by
  intro chunk
  induction chunk with
  | nil => intro t p; simp
  | cons q qs ih =>
    intro t p
    rw [List.foldl_cons, ih]
    by_cases hq : p = q
    · subst hq
      rw [rowsOf_delete, if_pos rfl]
      by_cases hqs : p ∈ qs <;> simp [hqs]
    · rw [rowsOf_delete, if_neg hq]
      by_cases hqs : p ∈ qs <;> simp [hqs, hq, List.mem_cons]

theorem rowsOf_rowsOf (rows : List LineRow) (q p : String) :
    rowsOfParent (rowsOfParent rows q) p =
      if q = p then rowsOfParent rows p else [] := by
  unfold rowsOfParent
  rw [List.filter_filter]
  by_cases hqp : q = p
  · subst hqp
    rw [if_pos rfl]
    apply List.filter_congr
    intro x _
    simp
  · rw [if_neg hqp]
    apply List.filter_eq_nil_iff.mpr
    intro x _
    simp only [Bool.and_eq_true, decide_eq_true_eq]
    rintro ⟨h1, h2⟩
    exact hqp (h2 ▸ h1 ▸ rfl)

theorem rowsOf_chunkRows_of_not_mem (rows : List LineRow) (chunk : List String)
    (p : String) (hp : p ∉ chunk) :
    rowsOfParent ((chunk.map (rowsOfParent rows)).flatten) p = [] := by
  induction chunk with
  | nil => rfl
  | cons q qs ih =>
    rw [List.map_cons, List.flatten_cons, rowsOf_append]
    rw [rowsOf_rowsOf, if_neg (fun h => hp (by rw [← h]; exact List.mem_cons_self _ _)),
      ih (fun h => hp (List.mem_cons_of_mem _ h))]
    rfl

theorem rowsOf_chunkRows_of_mem (rows : List LineRow) (chunk : List String)
    (p : String) (hnd : chunk.Nodup) (hp : p ∈ chunk) :
    rowsOfParent ((chunk.map (rowsOfParent rows)).flatten) p =
      rowsOfParent rows p := by
  induction chunk with
  | nil => cases hp
  | cons q qs ih =>
    rw [List.map_cons, List.flatten_cons, rowsOf_append, rowsOf_rowsOf]
    rw [List.nodup_cons] at hnd
    rcases List.mem_cons.mp hp with rfl | hqs
    · rw [if_pos rfl, rowsOf_chunkRows_of_not_mem rows qs p hnd.1,
        List.append_nil]
    · rw [if_neg (fun h => hnd.1 (by rw [h]; exact hqs)), ih hnd.2 hqs, List.nil_append]

theorem mem_chunkRows {rows : List LineRow} {chunk : List String} {r : LineRow}
    (h : r ∈ (chunk.map (rowsOfParent rows)).flatten) :
    r ∈ rows ∧ r.parent ∈ chunk := by
  obtain ⟨l, hl, hrl⟩ := List.mem_flatten.mp h
  obtain ⟨q, hq, rfl⟩ := List.mem_map.mp hl
  obtain ⟨hr, hpar⟩ := List.mem_filter.mp hrl
  simp only [decide_eq_true_eq] at hpar
  exact ⟨hr, hpar ▸ hq⟩

theorem mem_rowsOfParent {rows : List LineRow} {p : String} {r : LineRow}
    (h : r ∈ rowsOfParent rows p) : r ∈ rows ∧ r.parent = p := by
  obtain ⟨hr, hpar⟩ := List.mem_filter.mp h
  simp only [decide_eq_true_eq] at hpar
  exact ⟨hr, hpar⟩

theorem nodup_pk_chunkRows (rows : List LineRow) (chunk : List String)
    (hndc : chunk.Nodup) (hnd : (rows.map (fun r => r.pk)).Nodup) :
    (((chunk.map (rowsOfParent rows)).flatten).map (fun r => r.pk)).Nodup := by
  induction chunk with
  | nil => simp
  | cons q qs ih =>
    rw [List.nodup_cons] at hndc
    rw [List.map_cons, List.flatten_cons, List.map_append]
    refine List.Nodup.append ?_ (ih hndc.2) ?_
    · exact ((List.filter_sublist rows).map (fun r => r.pk)).nodup hnd
    · intro x hx1 hx2
      obtain ⟨r1, hr1, rfl⟩ := List.mem_map.mp hx1
      obtain ⟨r2, hr2, hpk⟩ := List.mem_map.mp hx2
      obtain ⟨hr1m, hr1p⟩ := mem_rowsOfParent hr1
      obtain ⟨hr2m, hr2c⟩ := mem_chunkRows hr2
      have : r2 = r1 := List.inj_on_of_nodup_map hnd hr2m hr1m hpk
      subst this
      exact hndc.1 (hr1p ▸ hr2c)

theorem processChunk_sets (rows t : List LineRow) (chunk : List String)
    (p : String) (hndc : chunk.Nodup) (hp : p ∈ chunk)
    (hnd : (rows.map (fun r => r.pk)).Nodup) :
    rowsOfParent (processParentChunk rows t chunk) p = rowsOfParent rows p := by
  unfold processParentChunk
  rw [rowsOf_insert_batch _ _ _ (nodup_pk_chunkRows rows chunk hndc hnd) ?_]
  · rw [rowsOf_deletes_fold, if_pos hp, List.nil_append,
      rowsOf_chunkRows_of_mem rows chunk p hndc hp]
  · intro r _ hmem
    rw [rowsOf_deletes_fold, if_pos hp] at hmem
    cases hmem

theorem processChunk_keeps (rows t : List LineRow) (chunk : List String)
    (p : String) (hndc : chunk.Nodup) (hp : p ∉ chunk)
    (hinv : rowsOfParent t p = rowsOfParent rows p)
    (hnd : (rows.map (fun r => r.pk)).Nodup) :
    rowsOfParent (processParentChunk rows t chunk) p = rowsOfParent rows p := by
  unfold processParentChunk
  rw [rowsOf_insert_batch _ _ _ (nodup_pk_chunkRows rows chunk hndc hnd) ?_]
  · rw [rowsOf_deletes_fold, if_neg hp, hinv,
      rowsOf_chunkRows_of_not_mem rows chunk p hp, List.append_nil]
  · intro r hr hmem
    rw [rowsOf_deletes_fold, if_neg hp, hinv] at hmem
    obtain ⟨x, hx, hpk⟩ := List.mem_map.mp hmem
    obtain ⟨hxm, hxp⟩ := mem_rowsOfParent hx
    obtain ⟨hrm, hrc⟩ := mem_chunkRows hr
    have : x = r := List.inj_on_of_nodup_map hnd hxm hrm hpk
    subst this
    exact hp (hxp ▸ hrc)

theorem nodup_of_flatten_nodup {CS : List (List String)}
    (h : CS.flatten.Nodup) : ∀ C ∈ CS, C.Nodup := by
  induction CS with
  | nil => intro C hC; cases hC
  | cons C0 CS ih =>
    rw [List.flatten_cons, List.nodup_append] at h
    intro C hC
    rcases List.mem_cons.mp hC with rfl | hC2
    · exact h.1
    · exact ih h.2.1 C hC2

theorem chunksFold_keeps (rows : List LineRow) (p : String)
    (hnd : (rows.map (fun r => r.pk)).Nodup) :
    ∀ (CS : List (List String)) (t : List LineRow),
    (∀ C ∈ CS, C.Nodup) → p ∉ CS.flatten →
    rowsOfParent t p = rowsOfParent rows p →
    rowsOfParent (CS.foldl (processParentChunk rows) t) p =
      rowsOfParent rows p := by
  intro CS
  induction CS with
  | nil => intro t _ _ hinv; exact hinv
  | cons C CS ih =>
    intro t hC hp hinv
    rw [List.flatten_cons] at hp
    rw [List.foldl_cons]
    refine ih (processParentChunk rows t C) (fun C' hC' => hC C' (List.mem_cons_of_mem _ hC'))
      (fun h => hp (List.mem_append.mpr (Or.inr h))) ?_
    exact processChunk_keeps rows t C p (hC C (List.mem_cons_self _ _))
      (fun h => hp (List.mem_append.mpr (Or.inl h))) hinv hnd

theorem chunksFold_sets (rows : List LineRow) (p : String)
    (hnd : (rows.map (fun r => r.pk)).Nodup) :
    ∀ (CS : List (List String)) (t : List LineRow),
    CS.flatten.Nodup → p ∈ CS.flatten →
    rowsOfParent (CS.foldl (processParentChunk rows) t) p =
      rowsOfParent rows p := by
  intro CS
  induction CS with
  | nil => intro t _ hp; cases hp
  | cons C CS ih =>
    intro t hjn hp
    rw [List.flatten_cons] at hp
    have hjn2 := hjn
    rw [List.flatten_cons, List.nodup_append] at hjn2
    rw [List.foldl_cons]
    rcases List.mem_append.mp hp with hpC | hpCS
    · refine chunksFold_keeps rows p hnd CS (processParentChunk rows t C)
        (nodup_of_flatten_nodup hjn2.2.1) (fun h => hjn2.2.2 hpC h) ?_
      exact processChunk_sets rows t C p hjn2.1 hpC hnd
    · exact ih (processParentChunk rows t C) hjn2.2.1 hpCS

/-- C5: re-syncing a line-item-bearing header replaces its line rows
all-or-nothing — after `_save_data` runs, the line-item table contains for
that header exactly the newly extracted rows (their primary keys are
pairwise distinct: `TxnLineID` is unique upstream and the synthesized
`line_item_id` embeds parent and ordinal), never the old rows, never a mix
and never the sum of old and new. -/
theorem replace_line_items_all_or_nothing (t rows : List LineRow) (p : String)
    (hnd : (rows.map (fun r => r.pk)).Nodup) (hp : p ≠ "")
    (hmem : ∃ r ∈ rows, r.parent = p) :
    rowsOfParent (replace_line_items t rows) p = rowsOfParent rows p := by
  unfold replace_line_items
  apply chunksFold_sets rows p hnd
  · rw [join_listChunks]
    exact nodup_firstOccurrences _
  · rw [join_listChunks]
    apply mem_firstOccurrences.mpr
    obtain ⟨r, hr, hrp⟩ := hmem
    exact List.mem_map.mpr
      ⟨r, List.mem_filter.mpr ⟨hr, by simp [hrp, hp]⟩, hrp⟩

/-- Witness for C5: a header with 3 existing line rows re-synced with 2 new
line rows ends with exactly those 2 rows, while the sibling header's row
survives. -/
theorem replace_line_items_all_or_nothing_witness :
    rowsOfParent
        (replace_line_items
          [{ parent := "H1", pk := "L1", payload := "old1" },
           { parent := "H1", pk := "L2", payload := "old2" },
           { parent := "H1", pk := "L3", payload := "old3" },
           { parent := "H2", pk := "L9", payload := "other" }]
          [{ parent := "H1", pk := "L1", payload := "new1" },
           { parent := "H1", pk := "L2", payload := "new2" }])
        "H1" =
      [{ parent := "H1", pk := "L1", payload := "new1" },
       { parent := "H1", pk := "L2", payload := "new2" }] ∧
    (rowsOfParent
        (replace_line_items
          [{ parent := "H1", pk := "L1", payload := "old1" },
           { parent := "H1", pk := "L2", payload := "old2" },
           { parent := "H1", pk := "L3", payload := "old3" },
           { parent := "H2", pk := "L9", payload := "other" }]
          [{ parent := "H1", pk := "L1", payload := "new1" },
           { parent := "H1", pk := "L2", payload := "new2" }])
        "H1").length = 2 := by
  have h := replace_line_items_all_or_nothing
    [{ parent := "H1", pk := "L1", payload := "old1" },
     { parent := "H1", pk := "L2", payload := "old2" },
     { parent := "H1", pk := "L3", payload := "old3" },
     { parent := "H2", pk := "L9", payload := "other" }]
    [{ parent := "H1", pk := "L1", payload := "new1" },
     { parent := "H1", pk := "L2", payload := "new2" }]
    "H1" (by decide) (by decide)
    ⟨{ parent := "H1", pk := "L1", payload := "new1" }, by decide, rfl⟩
  rw [h]
  exact ⟨rfl, rfl⟩

end QBSync
